import Mathlib

/-!
Shallow embedding of the `expo-camera2` camera pipeline
(`expo.modules.camera2.camera`): the option store (`OptionsBundle` /
`MutableOptionsBundle`), capture/session configuration builders
(`CaptureConfig.Builder`, `SessionConfig.Builder`,
`SessionConfig.ValidatingBuilder`), the `CaptureSession` state machine and the
`Camera` state machine, together with theorems checking the specification's
claims against this embedding.
-/

namespace Camera2

/-- Option identifiers. The source keys options by `String` ids; we model ids
as lists of characters carrying the same lexicographic order that
`String.compareTo` induces. -/
abbrev OptionId := List Char

/-- Strict lexicographic order on option ids, mirroring
`o1.id.compareTo(o2.id) < 0`, the `TreeMap` comparator used by
`OptionsBundle` and `MutableOptionsBundle`. -/
def idLt : OptionId → OptionId → Bool
  | _, [] => false
  | [], _ :: _ => true
  | a :: as, b :: bs => if a < b then true else if a = b then idLt as bs else false

/-- Test whether id `s` starts with id `p`, mirroring `String.startsWith`
as used by `OptionsBundle.findOptions`. -/
def idStartsWith : OptionId → OptionId → Bool
  | _, [] => true
  | [], _ :: _ => false
  | a :: as, b :: bs => if a = b then idStartsWith as bs else false

/-- Values stored in an option store. Option values in the source are
arbitrary objects, some of which are `MultiValueSet`s (HashSet-backed
collection values merged by set union); we model a value as either an opaque
scalar or a multi-value set of scalars. -/
inductive Value where
  | scalar : Int → Value
  | multi : List Int → Value
deriving DecidableEq, Repr

/-- Test for the `value is MultiValueSet<*>` checks in the source. -/
def Value.isMulti : Value → Bool
  | .multi _ => true
  | .scalar _ => false

/-- `MultiValueSet.addAll`: add to `xs` all elements of `ys` not already
present (HashSet semantics — only the set of elements is observable). -/
def multiUnion (xs ys : List Int) : List Int :=
  xs ++ ys.filter (fun y => ¬ xs.contains y)

/-- `MultiValueSet.clone`: an object copy; in the pure model a copy is the
value itself. -/
def Value.clone : Value → Value
  | v => v

/-- Contents of an `OptionsBundle` / `MutableOptionsBundle`: a `TreeMap` from
option id to value ordered by `idLt`, modelled as an association list kept in
ascending key order by `insertOption`. -/
abbrev Options := List (OptionId × Value)

/-- Map lookup, as in `retrieveOption(id, valueIfMissing = null)`. -/
def lookupOption : Options → OptionId → Option Value
  | [], _ => none
  | (k, v) :: rest, id => if id = k then some v else lookupOption rest id

/-- `Config.containsOption`. -/
def containsOption (os : Options) (id : OptionId) : Bool :=
  (lookupOption os id).isSome

/-- `MutableOptionsBundle.insertOption` — a `TreeMap` upsert keeping the
backing list sorted. -/
def insertOption : Options → OptionId → Value → Options
  | [], id, v => [(id, v)]
  | (k, w) :: rest, id, v =>
    if idLt id k then (id, v) :: (k, w) :: rest
    else if id = k then (id, v) :: rest
    else (k, w) :: insertOption rest id v

/-- `Config.listOptions()` — `TreeMap` keys, iterated in sorted order. -/
def listOptions (os : Options) : List OptionId := os.map Prod.fst

/-- Representation invariant of the `TreeMap` backing list: keys strictly
ascending in `idLt`. -/
def optionsSorted : Options → Bool
  | [] => true
  | [_] => true
  | a :: b :: rest => idLt a.1 b.1 && optionsSorted (b :: rest)

/-- Visiting loop of `OptionsBundle.findOptions`: walk the entries of
`options.tailMap(query)` in order; `break` at the first id not starting with
the search stem, and `break` after the first id on which the matcher returns
`false`. Returns the visited ids in visit order. -/
def findOptionsGo (stem : OptionId) (m : OptionId → Bool) : Options → List OptionId
  | [] => []
  | (k, _) :: rest =>
    if idStartsWith k stem = false then []
    else if m k then k :: findOptionsGo stem m rest
    else [k]

/-- `OptionsBundle.findOptions(idSearchString, matcher)`. On the sorted
backing list `options.tailMap(query)` (query id = the search stem) is the
suffix starting at the first key not below the stem. -/
def findOptions (os : Options) (stem : OptionId) (m : OptionId → Bool) : List OptionId :=
  findOptionsGo stem m (os.dropWhile (fun e => idLt e.1 stem))

/-- Specification side for C9: the ids of `os` that start with `stem`, in
storage order. -/
def matchingIds (os : Options) (stem : OptionId) : List OptionId :=
  (listOptions os).filter (fun k => idStartsWith k stem)

/-- Specification side for C9: truncate a visit list at the first id the
matcher rejects; that id is still visited, then visiting stops. -/
def visitUpTo (m : OptionId → Bool) (ks : List OptionId) : List OptionId :=
  ks.takeWhile m ++ (ks.dropWhile m).take 1

/-- Concrete sorted bundle used for witnesses: ids "a", "ab", "b". -/
def sampleBundle : Options :=
  [(['a'], Value.scalar 1), (['a', 'b'], Value.scalar 2), (['b'], Value.scalar 3)]

/-- HashSet insert: add an element if not already present. Surfaces and
callback objects are modelled by numeric identities. -/
def setInsert (xs : List Nat) (x : Nat) : List Nat :=
  if xs.contains x then xs else xs ++ [x]

/-- HashSet `addAll`. -/
def setUnion (xs ys : List Nat) : List Nat := ys.foldl setInsert xs

/-- Failures raised by the configuration builders: the
`IllegalArgumentException("duplicate camera capture callback")` of
`CaptureConfig.Builder.addCameraCaptureCallback`, the
`IllegalArgumentException("Unsupported session configuration combination")`
of `SessionConfig.ValidatingBuilder.build`, and the Kotlin
`UninitializedPropertyAccessException` raised when the `lateinit var tag` of
`CaptureConfig.Builder` is read before it was ever assigned. -/
inductive BuilderError where
  | duplicateCallback : BuilderError
  | configurationConflict : BuilderError
  | uninitializedTag : BuilderError
deriving DecidableEq, Repr

/-- `CaptureConfig`: the immutable result of `CaptureConfig.Builder.build()`. -/
structure CaptureConfig where
  surfaces : List Nat
  implementationOptions : Options
  templateType : Int
  cameraCaptureCallbacks : List Nat
  isUseRepeatingSurface : Bool
  tag : Int
deriving DecidableEq, Repr

/-- `CaptureConfig.Builder`. The `lateinit var tag : Any` is modelled by an
`Option Int` that is `none` until first assigned. -/
structure CaptureConfigBuilder where
  surfaces : List Nat
  templateType : Int
  isUseRepeatingSurface : Bool
  cameraCaptureCallbacks : List Nat
  tag : Option Int
  implementationOptions : Options
deriving DecidableEq, Repr

/-- `CaptureConfig.Builder()` (the public no-argument constructor). -/
def CaptureConfigBuilder.empty : CaptureConfigBuilder :=
  { surfaces := []
    templateType := -1
    isUseRepeatingSurface := false
    cameraCaptureCallbacks := []
    tag := none
    implementationOptions := [] }

/-- `CaptureConfig.Builder.from(base)` (the private copying constructor). -/
def CaptureConfigBuilder.ofConfig (base : CaptureConfig) : CaptureConfigBuilder :=
  { surfaces := setUnion [] base.surfaces
    templateType := base.templateType
    isUseRepeatingSurface := base.isUseRepeatingSurface
    cameraCaptureCallbacks := base.cameraCaptureCallbacks
    tag := some base.tag
    implementationOptions := base.implementationOptions }

/-- `CaptureConfig.Builder.addCameraCaptureCallback`: fails when the same
callback instance is already registered. -/
def CaptureConfigBuilder.addCameraCaptureCallback (b : CaptureConfigBuilder)
    (c : Nat) : Except BuilderError CaptureConfigBuilder :=
  if b.cameraCaptureCallbacks.contains c then .error .duplicateCallback
  else .ok { b with cameraCaptureCallbacks := b.cameraCaptureCallbacks ++ [c] }

/-- `CaptureConfig.Builder.addAllCameraCaptureCallbacks` (the source's `for`
loop over the collection, stopping at the first duplicate). -/
def CaptureConfigBuilder.addAllCameraCaptureCallbacks (b : CaptureConfigBuilder) :
    List Nat → Except BuilderError CaptureConfigBuilder
  | [] => .ok b
  | c :: cs =>
    match b.addCameraCaptureCallback c with
    | .error e => .error e
    | .ok b1 => b1.addAllCameraCaptureCallbacks cs

/-- Body of the `for (option in config.listOptions())` loop of
`CaptureConfig.Builder.addImplementationOptions`. When the existing value is
a `MultiValueSet`, the source casts the new value to `MultiValueSet` and
unions it into the existing set in place; the cast would throw
`ClassCastException` on a scalar, which cannot happen when an option id
determines its value type (the `Config.Option` contract), so the model
leaves the store unchanged on that unreachable branch. Otherwise the new
value — cloned when it is a `MultiValueSet` — overwrites the existing one. -/
def addImplStep (acc : Options) (e : OptionId × Value) : Options :=
  match lookupOption acc e.1 with
  | some (Value.multi ex) =>
    match e.2 with
    | Value.multi ns => insertOption acc e.1 (Value.multi (multiUnion ex ns))
    | Value.scalar _ => acc
  | _ => insertOption acc e.1 e.2.clone

/-- `CaptureConfig.Builder.addImplementationOptions(config)` acting on the
underlying option store. -/
def addImplementationOptions (implOpts config : Options) : Options :=
  config.foldl addImplStep implOpts

/-- The same operation on the builder. -/
def CaptureConfigBuilder.addImplementationOptions (b : CaptureConfigBuilder)
    (config : Options) : CaptureConfigBuilder :=
  { b with implementationOptions :=
      Camera2.addImplementationOptions b.implementationOptions config }

/-- `CaptureConfig.Builder.setImplementationOptions(config)` (replace). -/
def CaptureConfigBuilder.setImplementationOptions (b : CaptureConfigBuilder)
    (config : Options) : CaptureConfigBuilder :=
  { b with implementationOptions := config }

/-- `CaptureConfig.Builder.addSurface` (HashSet add). -/
def CaptureConfigBuilder.addSurface (b : CaptureConfigBuilder) (s : Nat) :
    CaptureConfigBuilder :=
  { b with surfaces := setInsert b.surfaces s }

/-- `CaptureConfig.Builder.removeSurface` (HashSet remove). -/
def CaptureConfigBuilder.removeSurface (b : CaptureConfigBuilder) (s : Nat) :
    CaptureConfigBuilder :=
  { b with surfaces := b.surfaces.filter (fun x => x ≠ s) }

/-- `CaptureConfig.Builder.build()`. Reading the `lateinit var tag` before it
was assigned throws `UninitializedPropertyAccessException`. -/
def CaptureConfigBuilder.build (b : CaptureConfigBuilder) :
    Except BuilderError CaptureConfig :=
  match b.tag with
  | none => .error .uninitializedTag
  | some t =>
    .ok { surfaces := b.surfaces
          implementationOptions := b.implementationOptions
          templateType := b.templateType
          cameraCaptureCallbacks := b.cameraCaptureCallbacks
          isUseRepeatingSurface := b.isUseRepeatingSurface
          tag := t }

/-- Specification side for C6: the per-option merge rule stated by the
claim — union when both values are multi-value sets, otherwise the new value
overwrites. -/
def mergeSpec (oldv : Option Value) (newv : Value) : Value :=
  match oldv, newv with
  | some (Value.multi ex), Value.multi ns => Value.multi (multiUnion ex ns)
  | _, _ => newv

/-- Specification side for C6: what the merged store should hold at key `k`. -/
def mergeSpecAt (implOpts config : Options) (k : OptionId) : Option Value :=
  match lookupOption config k with
  | none => lookupOption implOpts k
  | some v => some (mergeSpec (lookupOption implOpts k) v)

/-- `SessionConfig`: the immutable result of the session-configuration
builders, aggregating the session surfaces, the three callback lists and the
repeating `CaptureConfig`. -/
structure SessionConfig where
  surfaces : List Nat
  deviceStateCallbacks : List Nat
  sessionStateCallbacks : List Nat
  singleCameraCaptureCallbacks : List Nat
  repeatingCaptureConfig : CaptureConfig
deriving DecidableEq, Repr

/-- `SessionConfig.ValidatingBuilder` state: the inherited `BaseBuilder`
surface set and `captureConfigBuilder`, the three accumulated callback lists,
and the `valid` / `templateSet` flags. -/
structure ValidatingBuilder where
  surfaces : List Nat
  captureConfigBuilder : CaptureConfigBuilder
  deviceStateCallbacks : List Nat
  sessionStateCallbacks : List Nat
  singleCameraCaptureCallbacks : List Nat
  valid : Bool
  templateSet : Bool
deriving DecidableEq, Repr

/-- Freshly constructed `ValidatingBuilder()`. -/
def ValidatingBuilder.empty : ValidatingBuilder :=
  { surfaces := []
    captureConfigBuilder := CaptureConfigBuilder.empty
    deviceStateCallbacks := []
    sessionStateCallbacks := []
    singleCameraCaptureCallbacks := []
    valid := true
    templateSet := false }

/-- `ValidatingBuilder.isValid`. -/
def ValidatingBuilder.isValid (b : ValidatingBuilder) : Bool :=
  b.templateSet && b.valid

/-- Template stage of `ValidatingBuilder.add`: the first add records the
template type; a later mismatching template type marks the merge invalid. -/
def ValidatingBuilder.checkTemplate (b : ValidatingBuilder) (t : Int) :
    ValidatingBuilder :=
  if b.templateSet = false then
    { b with
      captureConfigBuilder := { b.captureConfigBuilder with templateType := t }
      templateSet := true }
  else if b.captureConfigBuilder.templateType = t then b
  else { b with valid := false }

/-- Tag stage of `ValidatingBuilder.add`: `captureConfigBuilder.tag = tag`,
an unconditional overwrite. -/
def ValidatingBuilder.setTag (b : ValidatingBuilder) (t : Int) : ValidatingBuilder :=
  { b with captureConfigBuilder := { b.captureConfigBuilder with tag := some t } }

/-- Surface stage of `ValidatingBuilder.add`: union the session surfaces and
the capture-request surfaces into their HashSets, then mark the merge invalid
when the accumulated capture-request surfaces are not a subset of the
accumulated session surfaces. -/
def ValidatingBuilder.addSurfacesOf (b : ValidatingBuilder) (sc : SessionConfig) :
    ValidatingBuilder :=
  let b1 := { b with surfaces := setUnion b.surfaces sc.surfaces }
  let b2 := { b1 with captureConfigBuilder :=
      { b1.captureConfigBuilder with surfaces :=
          (setUnion b1.captureConfigBuilder.surfaces
            sc.repeatingCaptureConfig.surfaces) } }
  if b2.captureConfigBuilder.surfaces.all (fun s => b2.surfaces.contains s) then b2
  else { b2 with valid := false }

/-- Loop body of the option-conflict check of `ValidatingBuilder.add`,
folding over the new config's options with state (addedOptions, valid): a
non-multi-value new value whose option already exists in the accumulated
options is compared — a differing value marks the merge invalid — while
every other option is recorded in `addedOptions`. -/
def checkOptionsStep (oldOptions : Options) (st : Options × Bool)
    (e : OptionId × Value) : Options × Bool :=
  if e.2.isMulti = false ∧ containsOption oldOptions e.1 = true then
    if lookupOption oldOptions e.1 = some e.2 then st else (st.1, false)
  else (insertOption st.1 e.1 e.2, st.2)

/-- Option stage of `ValidatingBuilder.add`: run the conflict-check loop over
the new options against the accumulated `captureConfigBuilder` options, then
merge the collected `addedOptions` in via `addImplementationOptions`. -/
def ValidatingBuilder.checkOptions (b : ValidatingBuilder) (newOptions : Options) :
    ValidatingBuilder :=
  let oldOptions := b.captureConfigBuilder.implementationOptions
  let st := newOptions.foldl (checkOptionsStep oldOptions) ([], b.valid)
  { b with
    valid := st.2
    captureConfigBuilder := b.captureConfigBuilder.addImplementationOptions st.1 }

/-- Device- and session-state-callback stage of `ValidatingBuilder.add`
(plain `addAll`, no duplicate check). -/
def ValidatingBuilder.appendSessionCallbacks (b : ValidatingBuilder)
    (sc : SessionConfig) : ValidatingBuilder :=
  { b with
    deviceStateCallbacks := b.deviceStateCallbacks ++ sc.deviceStateCallbacks
    sessionStateCallbacks := b.sessionStateCallbacks ++ sc.sessionStateCallbacks }

/-- Replace the accumulated `captureConfigBuilder`. -/
def ValidatingBuilder.setCCB (b : ValidatingBuilder) (ccb : CaptureConfigBuilder) :
    ValidatingBuilder :=
  { b with captureConfigBuilder := ccb }

/-- Single-capture-callback stage of `ValidatingBuilder.add` (plain
`addAll`, no duplicate check). -/
def ValidatingBuilder.appendSingleCallbacks (b : ValidatingBuilder)
    (sc : SessionConfig) : ValidatingBuilder :=
  { b with singleCameraCaptureCallbacks :=
      b.singleCameraCaptureCallbacks ++ sc.singleCameraCaptureCallbacks }

/-- `SessionConfig.ValidatingBuilder.add(sessionConfig)`, staged in source
order: template check, tag overwrite, device/session callbacks, repeating
capture callbacks (the only failing stage — it throws on a duplicate
callback instance; the source mutates the builder in place so the earlier
stages survive that throw, while the model discards them, a difference that
is unobservable through `.ok` results), single-capture callbacks, surface
union with the subset check, and the option-conflict check. -/
def ValidatingBuilder.add (b : ValidatingBuilder) (sc : SessionConfig) :
    Except BuilderError ValidatingBuilder :=
  let cc := sc.repeatingCaptureConfig
  let b2 := ((b.checkTemplate cc.templateType).setTag cc.tag).appendSessionCallbacks sc
  match b2.captureConfigBuilder.addAllCameraCaptureCallbacks
      cc.cameraCaptureCallbacks with
  | .error e => .error e
  | .ok ccb =>
    .ok (((((b2.setCCB ccb).appendSingleCallbacks sc).addSurfacesOf
      sc).checkOptions cc.implementationOptions))

/-- Sequence of `add` calls starting from a given builder. -/
def ValidatingBuilder.addAll (b : ValidatingBuilder) :
    List SessionConfig → Except BuilderError ValidatingBuilder
  | [] => .ok b
  | c :: cs =>
    match b.add c with
    | .error e => .error e
    | .ok b1 => b1.addAll cs

/-- `SessionConfig.ValidatingBuilder.build()`: throws the
configuration-conflict `IllegalArgumentException` when a conflict was
recorded, then builds the combined config (which reads the `lateinit` tag of
the `captureConfigBuilder`). -/
def ValidatingBuilder.build (b : ValidatingBuilder) :
    Except BuilderError SessionConfig :=
  if b.valid = false then .error .configurationConflict
  else
    match b.captureConfigBuilder.build with
    | .error e => .error e
    | .ok cc =>
      .ok { surfaces := b.surfaces
            deviceStateCallbacks := b.deviceStateCallbacks
            sessionStateCallbacks := b.sessionStateCallbacks
            singleCameraCaptureCallbacks := b.singleCameraCaptureCallbacks
            repeatingCaptureConfig := cc }

/-- Option part of the clean-merge invariant for C5: every accumulated option
value comes from some added config, with the same multi-value kind, and
scalar values equal the (unique) scalar value bound by the contributing
configs. -/
def cleanOptionsInv (cs : List SessionConfig) (b : ValidatingBuilder) : Prop :=
  ∀ k u, lookupOption b.captureConfigBuilder.implementationOptions k = some u →
    ∃ c ∈ cs, ∃ w,
      lookupOption c.repeatingCaptureConfig.implementationOptions k = some w ∧
      u.isMulti = w.isMulti ∧ (u.isMulti = false → u = w)

/-- Invariant of a `ValidatingBuilder` after a conflict-free sequence of
adds: still valid, template recorded, surfaces the union of the added
configs' surfaces, capture callbacks concatenated, options sorted and
sourced from the added configs, and the tag assigned. -/
def CleanInv (cs : List SessionConfig) (t : Int) (b : ValidatingBuilder) : Prop :=
  b.valid = true ∧
  b.templateSet = !cs.isEmpty ∧
  (cs ≠ [] → b.captureConfigBuilder.templateType = t) ∧
  (∀ x : Nat, x ∈ b.surfaces ↔ ∃ c ∈ cs, x ∈ c.surfaces) ∧
  (∀ x : Nat, x ∈ b.captureConfigBuilder.surfaces ↔
    ∃ c ∈ cs, x ∈ c.repeatingCaptureConfig.surfaces) ∧
  b.captureConfigBuilder.cameraCaptureCallbacks =
    (cs.map (fun c => c.repeatingCaptureConfig.cameraCaptureCallbacks)).flatten ∧
  optionsSorted b.captureConfigBuilder.implementationOptions = true ∧
  cleanOptionsInv cs b ∧
  (cs ≠ [] → b.captureConfigBuilder.tag.isSome = true)

/-- Conflict-tracking invariant for C5: once some added config has bound the
option id `k` to the non-multi-value `v`, either a conflict has already been
recorded (`valid == false`), or the accumulated options still bind `k` — to
`v` itself or to a multi-value entry — so that a later add binding `k` to a
different non-multi-value must trip the conflict check. -/
def ConflictR (k : OptionId) (v : Value) (b : ValidatingBuilder) : Prop :=
  b.valid = false ∨
  ∃ u, lookupOption b.captureConfigBuilder.implementationOptions k = some u ∧
    (u = v ∨ u.isMulti = true)

/-- Replace the tag of a session config's repeating capture config (used to
state that tags have no effect on validity). -/
def retagSession (t : Int) (sc : SessionConfig) : SessionConfig :=
  { sc with repeatingCaptureConfig := { sc.repeatingCaptureConfig with tag := t } }

/-- Concrete session config used by witnesses: one surface, no callbacks,
template type 2, and the given tag. -/
def sampleSession (tg : Int) : SessionConfig :=
  { surfaces := [1]
    deviceStateCallbacks := []
    sessionStateCallbacks := []
    singleCameraCaptureCallbacks := []
    repeatingCaptureConfig :=
      { surfaces := [1]
        implementationOptions := []
        templateType := 2
        cameraCaptureCallbacks := []
        isUseRepeatingSurface := false
        tag := tg } }

/-- Overwrite the tag of a capture-config builder (used to state that tags
have no effect on any other part of the accumulated state). -/
def CaptureConfigBuilder.withTag (b : CaptureConfigBuilder) (t : Option Int) :
    CaptureConfigBuilder :=
  { b with tag := t }

/-- Overwrite the accumulated tag of a validating builder. -/
def ValidatingBuilder.withTag (b : ValidatingBuilder) (t : Option Int) :
    ValidatingBuilder :=
  { b with captureConfigBuilder := b.captureConfigBuilder.withTag t }

/-- `CaptureSession.State`. -/
inductive CaptureSessionState where
  | uninitialized
  | initialized
  | opening
  | opened
  | closed
  | releasing
  | released
deriving DecidableEq, Repr

/-- The `IllegalStateException`s thrown by the `CaptureSession` state
checks: the generic "should not be possible in state" guard, and the
dedicated "on a closed/released session" messages. -/
inductive SessionError where
  | invalidState
  | closedSession
deriving DecidableEq, Repr

/-- The completion handle returned by `CaptureSession.release()`: either the
shared `CallbackToFutureAdapter` future stored in `mReleaseFuture`
(identified by its allocation id; resolved later by the completer in
`StateCallback.onClosed`), or a fresh already-resolved
`Futures.immediateFuture(null)`. -/
inductive ReleaseHandle where
  | pending (id : Nat)
  | resolved
deriving DecidableEq, Repr

/-- Mutable state of a `CaptureSession`: the state flag, the pending
single-capture queue `mCaptureConfigs`, the held platform session
`mCameraCaptureSession` (by id) together with whether `close()` has been
called on it, `mSessionConfig`, `mCameraEventOnRepeatingOptions`, the shared
`mReleaseFuture` (by id) and whether `mReleaseCompleter` is attached, and a
freshness counter for future ids. -/
structure CaptureSession where
  state : CaptureSessionState
  captureConfigs : List CaptureConfig
  cameraCaptureSession : Option Nat
  platformSessionClosed : Bool
  sessionConfig : Option SessionConfig
  cameraEventOnRepeatingOptions : Option Options
  releaseFuture : Option Nat
  releaseCompleterSet : Bool
  nextId : Nat
deriving DecidableEq, Repr

/-- `CaptureSession.release()` (CaptureSession.kt lines 314-380).
`OPENED`/`CLOSED`: close the platform session if one is held, move to
`RELEASING`, and return the shared `mReleaseFuture`, creating it (and
attaching the completer) only if it does not exist yet. `OPENING` and
`RELEASING`: the same without the platform close (`OPENING` also moves to
`RELEASING`). `INITIALIZED`: move directly to `RELEASED` and fall through to
`Futures.immediateFuture(null)`, as does `RELEASED`. `UNINITIALIZED`:
`IllegalStateException`. -/
def CaptureSession.release (s : CaptureSession) :
    Except SessionError (CaptureSession × ReleaseHandle) :=
  match s.state with
  | .uninitialized => .error .invalidState
  | .opened | .closed =>
    let s1 := if s.cameraCaptureSession.isSome then
      { s with platformSessionClosed := true } else s
    let s2 := { s1 with state := .releasing }
    match s2.releaseFuture with
    | some fid => .ok (s2, .pending fid)
    | none =>
      .ok ({ s2 with
        releaseFuture := some s2.nextId
        releaseCompleterSet := true
        nextId := s2.nextId + 1 }, .pending s2.nextId)
  | .opening =>
    let s2 := { s with state := .releasing }
    match s2.releaseFuture with
    | some fid => .ok (s2, .pending fid)
    | none =>
      .ok ({ s2 with
        releaseFuture := some s2.nextId
        releaseCompleterSet := true
        nextId := s2.nextId + 1 }, .pending s2.nextId)
  | .releasing =>
    match s.releaseFuture with
    | some fid => .ok (s, .pending fid)
    | none =>
      .ok ({ s with
        releaseFuture := some s.nextId
        releaseCompleterSet := true
        nextId := s.nextId + 1 }, .pending s.nextId)
  | .initialized => .ok ({ s with state := .released }, .resolved)
  | .released => .ok (s, .resolved)

/-- `CaptureSession.StateCallback.onClosed` (lines 648-667): from any state
but `UNINITIALIZED`, move to `RELEASED`, drop the platform session, and
resolve and clear the release completer if one is attached (which resolves
the shared `mReleaseFuture`). Surface-detach notifications are outside the
model. -/
def CaptureSession.onClosed (s : CaptureSession) :
    Except SessionError CaptureSession :=
  if s.state = .uninitialized then .error .invalidState
  else .ok { s with
    state := .released
    cameraCaptureSession := none
    releaseCompleterSet := false }

/-- Loop body of `CaptureSession.issueBurstCaptureRequest` (lines 488-529):
walk the queued capture configs, skipping configs with no surfaces,
building a platform request for each via the abstracted
`Camera2CaptureRequestBuilder.build` oracle `buildReq`; a `null` built
request aborts the walk (the `return` inside the `try`). -/
def burstLoop (buildReq : CaptureConfig → Option Nat) :
    List CaptureConfig → List Nat → Option (List Nat)
  | [], acc => some acc
  | c :: rest, acc =>
    if c.surfaces.isEmpty then burstLoop buildReq rest acc
    else
      match buildReq c with
      | none => none
      | some r => burstLoop buildReq rest (acc ++ [r])

/-- `CaptureSession.issueBurstCaptureRequest()` (lines 480-539). An empty
queue returns before the `try`. Otherwise the request-building loop runs
inside `try { ... } finally { mCaptureConfigs.clear() }`: a `null` built
request returns early, and `captureBurst` may throw `CameraAccessException`
(the `platformOk` oracle), which is caught and logged — on every one of
these paths the `finally` clears the queue. Returns the new state and the
list of platform requests actually handed to `captureBurst`. -/
def CaptureSession.issueBurstCaptureRequest
    (buildReq : CaptureConfig → Option Nat) (platformOk : Bool)
    (s : CaptureSession) : CaptureSession × List Nat :=
  if s.captureConfigs.isEmpty then (s, [])
  else
    match burstLoop buildReq s.captureConfigs [] with
    | none => ({ s with captureConfigs := [] }, [])
    | some reqs =>
      if platformOk then ({ s with captureConfigs := [] }, reqs)
      else ({ s with captureConfigs := [] }, [])

/-- `CaptureSession.issueCaptureRequests(captureConfigs)` (lines 408-424):
`INITIALIZED`/`OPENING` append to the pending queue; `OPENED` appends and
immediately issues a burst; `CLOSED`/`RELEASING`/`RELEASED` throw the
closed/released `IllegalStateException`; `UNINITIALIZED` the state guard. -/
def CaptureSession.issueCaptureRequests
    (buildReq : CaptureConfig → Option Nat) (platformOk : Bool)
    (cfgs : List CaptureConfig) (s : CaptureSession) :
    Except SessionError (CaptureSession × List Nat) :=
  match s.state with
  | .uninitialized => .error .invalidState
  | .initialized | .opening =>
    .ok ({ s with captureConfigs := s.captureConfigs ++ cfgs }, [])
  | .opened =>
    .ok (CaptureSession.issueBurstCaptureRequest buildReq platformOk
      { s with captureConfigs := s.captureConfigs ++ cfgs })
  | .closed | .releasing | .released => .error .closedSession

/-- `CaptureSession.setupConfiguredSurface(list)` (lines 693-705): rebuild
each config with `templateType = CameraDevice.TEMPLATE_PREVIEW` (= 1) and
the repeating capture config's surfaces added. The inner `build()` always
succeeds because `Builder.from` copies the tag, so the `toOption` never
drops an element. -/
def CaptureSession.setupConfiguredSurface (sc : SessionConfig)
    (list : List CaptureConfig) : List CaptureConfig :=
  list.filterMap fun c =>
    ((sc.repeatingCaptureConfig.surfaces.foldl CaptureConfigBuilder.addSurface
      { CaptureConfigBuilder.ofConfig c with templateType := 1 }).build).toOption

/-- `CaptureSession.close()` (lines 270-301). `INITIALIZED` jumps straight
to the terminal `RELEASED` state. `OPENED` first issues the
`onDisableSession` capture requests (the `CameraEventCallback` subsystem is
abstracted by the `disable` oracle) while still `OPENED`, then moves to
`CLOSED` and drops the session config; `OPENING` does the same without the
disable requests. `CLOSED`/`RELEASING`/`RELEASED` do nothing. -/
def CaptureSession.close (disable : List CaptureConfig)
    (buildReq : CaptureConfig → Option Nat) (platformOk : Bool)
    (s : CaptureSession) : Except SessionError CaptureSession :=
  match s.state with
  | .uninitialized => .error .invalidState
  | .initialized => .ok { s with state := .released }
  | .opened =>
    let s1 :=
      match s.sessionConfig with
      | some sc =>
        if disable.isEmpty then s
        else
          (CaptureSession.issueBurstCaptureRequest buildReq platformOk
            { s with captureConfigs := s.captureConfigs ++
                CaptureSession.setupConfiguredSurface sc disable }).1
      | none => s
    .ok { s1 with
      state := .closed
      sessionConfig := none
      cameraEventOnRepeatingOptions := none }
  | .opening =>
    .ok { s with
      state := .closed
      sessionConfig := none
      cameraEventOnRepeatingOptions := none }
  | .closed | .releasing | .released => .ok s

/-- The `sessionConfig` setter (lines 113-132): allowed while
`INITIALIZED`/`OPENING` (and `OPENED`, where it also issues the repeating
request, abstracted away here as it does not change the modelled fields
beyond the config); throws on a closed/released session. -/
def CaptureSession.setSessionConfig (cfg : SessionConfig) (s : CaptureSession) :
    Except SessionError CaptureSession :=
  match s.state with
  | .uninitialized => .error .invalidState
  | .initialized | .opening | .opened => .ok { s with sessionConfig := some cfg }
  | .closed | .releasing | .released => .error .closedSession

/-- `CaptureSession.open(sessionConfig, cameraDevice)` (lines 172-257):
only the `INITIALIZED` branch does anything — with at least one configured
surface (the `surfacesOk` oracle) it moves to `OPENING` and asks the device
for a platform capture session; with none it logs and returns unchanged.
Any other state logs "Open not allowed". -/
def CaptureSession.open (sc : SessionConfig) (surfacesOk : Bool)
    (s : CaptureSession) : Except SessionError CaptureSession :=
  match s.state with
  | .uninitialized => .error .invalidState
  | .initialized =>
    if surfacesOk then .ok { s with state := .opening } else .ok s
  | _ => .ok s

/-- Concrete capture session used by witnesses: `OPENED`, holding platform
session 0 (not yet closed), an empty queue and no release future. -/
def sampleCaptureSession : CaptureSession :=
  { state := .opened
    captureConfigs := []
    cameraCaptureSession := some 0
    platformSessionClosed := false
    sessionConfig := none
    cameraEventOnRepeatingOptions := none
    releaseFuture := none
    releaseCompleterSet := false
    nextId := 1 }

/-- `Camera.State` (Futures.kt). -/
inductive CameraState where
  | uninitialized
  | initialized
  | opening
  | opened
  | closing
  | reopening
  | releasing
  | released
deriving DecidableEq, Repr

/-- Externally visible actions of the `Camera` state machine: the
`cameraManager.openCamera` platform call, a `cameraDevice.close()` call,
the `resetCaptureSession()` recycling of the inner capture session, and the
error log emitted when `openCamera` throws `CameraAccessException`. -/
inductive CameraEvent where
  | openCameraCall
  | deviceClose
  | resetSession
  | openErrorLog
deriving DecidableEq, Repr

/-- The `IllegalStateException`s thrown by the `Camera` device callbacks. -/
inductive CameraError where
  | illegalState
deriving DecidableEq, Repr

/-- State of a `Camera` (Futures.kt): the `AtomicReference` state flag and
the held `cameraDevice` (by id). The inner `captureSession` is abstracted:
its recycling appears as the `resetSession` event. -/
structure Camera where
  state : CameraState
  cameraDevice : Option Nat
deriving DecidableEq, Repr

/-- `Camera.openCameraDevice()` (Futures.kt lines 578-590): set the state
to `OPENING` and call `cameraManager.openCamera`; when the platform call
throws `CameraAccessException` (the `openOk` oracle is false) the exception
is caught, logged, and the state set back to `INITIALIZED` — the function
itself returns normally either way. -/
def Camera.openCameraDevice (openOk : Bool) (c : Camera) :
    Camera × List CameraEvent :=
  if openOk then ({ c with state := .opening }, [.openCameraCall])
  else ({ c with state := .initialized }, [.openCameraCall, .openErrorLog])

/-- `Camera.open()` (lines 565-576), on the owning thread: `INITIALIZED`
delegates to `openCameraDevice`; `CLOSING` only flips the state to
`REOPENING`; every other state logs and ignores the call. -/
def Camera.open (openOk : Bool) (c : Camera) : Camera × List CameraEvent :=
  match c.state with
  | .initialized => c.openCameraDevice openOk
  | .closing => ({ c with state := .reopening }, [])
  | _ => (c, [])

/-- `Camera.cameraDeviceStateCallback.onClosed` (lines 483-502): reset the
capture session first, then: `CLOSING` returns to `INITIALIZED` dropping the
device; `REOPENING` sets `OPENING` and calls `openCameraDevice` to reopen;
`RELEASING` terminates in `RELEASED`; any other state throws. -/
def Camera.onClosed (openOk : Bool) (c : Camera) :
    Except CameraError (Camera × List CameraEvent) :=
  match c.state with
  | .closing =>
    .ok ({ c with state := .initialized, cameraDevice := none }, [.resetSession])
  | .reopening =>
    let r := Camera.openCameraDevice openOk { c with state := .opening }
    .ok (r.1, .resetSession :: r.2)
  | .releasing =>
    .ok ({ c with state := .released, cameraDevice := none }, [.resetSession])
  | _ => .error .illegalState

/-- Concrete camera used by witnesses: `CLOSING` while still holding
device 0. -/
def sampleCamera : Camera :=
  { state := .closing
    cameraDevice := some 0 }

theorem idLt_nil_right (a : OptionId) : idLt a [] = false := by
  cases a <;> rfl

theorem idLt_irrefl (a : OptionId) : idLt a a = false := by
  induction a with
  | nil => rfl
  | cons c cs ih => simp [idLt, ih]

theorem idLt_trans (a b c : OptionId) (hab : idLt a b = true)
    (hbc : idLt b c = true) : idLt a c = true := by
  induction a generalizing b c with
  | nil =>
    cases c with
    | nil => rw [idLt_nil_right] at hbc; exact absurd hbc (by simp)
    | cons z zs => rfl
  | cons x xs ih =>
    cases b with
    | nil => rw [idLt_nil_right] at hab; exact absurd hab (by simp)
    | cons y ys =>
      cases c with
      | nil => rw [idLt_nil_right] at hbc; exact absurd hbc (by simp)
      | cons z zs =>
        simp only [idLt] at hab hbc ⊢
        split at hab
        · -- x < y
          rename_i hxy
          split at hbc
          · rename_i hyz
            simp [lt_trans hxy hyz]
          · split at hbc
            · rename_i hyz
              subst hyz
              simp [hxy]
            · exact absurd hbc (by simp)
        · split at hab
          · -- x = y
            rename_i hxy
            subst hxy
            split at hbc
            · rename_i hyz
              simp [hyz]
            · split at hbc
              · rename_i hyz
                subst hyz
                have := ih ys zs hab hbc
                simp [this]
              · exact absurd hbc (by simp)
          · exact absurd hab (by simp)

theorem idLt_asymm (a b : OptionId) (h : idLt a b = true) : idLt b a = false := by
  by_contra hc
  have hba : idLt b a = true := by
    cases hh : idLt b a
    · exact absurd hh hc
    · rfl
  have := idLt_trans a b a h hba
  rw [idLt_irrefl] at this
  exact absurd this (by simp)

/-- When `p ≤ k` and `k < l` (in the id order) then `p ≤ l`. -/
theorem idLt_le_of_lt (p k l : OptionId) (hkp : idLt k p = false)
    (hkl : idLt k l = true) : idLt l p = false := by
  induction p generalizing k l with
  | nil => rw [idLt_nil_right]
  | cons c cs ih =>
    cases k with
    | nil => exact absurd hkp (by simp [idLt])
    | cons a as =>
      cases l with
      | nil => rw [idLt_nil_right] at hkl; exact absurd hkl (by simp)
      | cons b bs =>
        simp only [idLt] at hkp hkl ⊢
        split at hkp
        · exact absurd hkp (by simp)
        · split at hkl
          · -- a < b
            rename_i hac hab
            split at hkp
            · -- a = c : c = a < b so ¬ (b < c) and b ≠ c
              rename_i haceq
              subst haceq
              have h1 : ¬ b < a := not_lt_of_gt hab
              have h2 : ¬ b = a := Ne.symm (ne_of_lt hab)
              simp [h1, h2]
            · -- c < a (since ¬ a < c and a ≠ c) hence c < b
              rename_i haceq
              have hca : c < a := by
                rcases lt_trichotomy a c with h | h | h
                · exact absurd h hac
                · exact absurd h haceq
                · exact h
              have hcb : c < b := lt_trans hca hab
              have h1 : ¬ b < c := not_lt_of_gt hcb
              have h2 : ¬ b = c := Ne.symm (ne_of_lt hcb)
              simp [h1, h2]
          · split at hkl
            · -- a = b
              rename_i hac hnab hab
              subst hab
              split at hkp
              · rename_i haceq
                subst haceq
                simp only [if_neg (lt_irrefl a), if_pos rfl]
                exact ih as bs hkp hkl
              · rename_i haceq
                simp [hac, haceq]
            · exact absurd hkl (by simp)

/-- A prefix is never strictly greater: if `k` starts with `p` then `¬ k < p`. -/
theorem idLt_eq_false_of_startsWith (p k : OptionId)
    (h : idStartsWith k p = true) : idLt k p = false := by
  induction p generalizing k with
  | nil => rw [idLt_nil_right]
  | cons c cs ih =>
    cases k with
    | nil => exact absurd h (by simp [idStartsWith])
    | cons a as =>
      simp only [idStartsWith] at h
      split at h
      · rename_i hac
        subst hac
        simp only [idLt, if_neg (lt_irrefl a), if_pos rfl]
        exact ih as h
      · exact absurd h (by simp)

/-- Interval property of the lexicographic order: if `p ≤ k`, `k` does not
start with `p`, and `k < l`, then `l` does not start with `p` either. This is
what justifies the early `break` in `OptionsBundle.findOptions`. -/
theorem idStartsWith_eq_false_of_next (p k l : OptionId)
    (hkp : idLt k p = false) (hks : idStartsWith k p = false)
    (hkl : idLt k l = true) : idStartsWith l p = false := by
  induction p generalizing k l with
  | nil => exact absurd hks (by simp [idStartsWith])
  | cons c cs ih =>
    cases k with
    | nil => exact absurd hkp (by simp [idLt])
    | cons a as =>
      cases l with
      | nil => rw [idLt_nil_right] at hkl; exact absurd hkl (by simp)
      | cons b bs =>
        simp only [idLt, idStartsWith] at hkp hks hkl ⊢
        split at hkp
        · exact absurd hkp (by simp)
        · rename_i hac
          split at hkl
          · -- a < b
            rename_i hab
            -- if b = c then a < c, contradicting ¬ a < c
            have hbc : ¬ b = c := by
              intro hbceq
              exact hac (hbceq ▸ hab)
            simp [hbc]
          · split at hkl
            · -- a = b
              rename_i hab
              subst hab
              split at hkp
              · rename_i haceq
                subst haceq
                -- heads equal: recurse
                split at hks
                · simp only [if_pos rfl]
                  exact ih as bs hkp hks hkl
                · exact absurd rfl (by assumption)
              · rename_i haceq
                simp [haceq]
            · exact absurd hkl (by simp)

theorem lookupOption_insert_self (os : Options) (k : OptionId) (v : Value) :
    lookupOption (insertOption os k v) k = some v := by
  induction os with
  | nil => simp [insertOption, lookupOption]
  | cons e rest ih =>
    obtain ⟨k0, w⟩ := e
    simp only [insertOption]
    split
    · simp [lookupOption]
    · split
      · rename_i heq
        subst heq
        simp [lookupOption]
      · rename_i hlt heq
        simp [lookupOption, heq, ih]

theorem lookupOption_insert_ne (os : Options) (k k' : OptionId) (v : Value)
    (h : k' ≠ k) : lookupOption (insertOption os k v) k' = lookupOption os k' := by
  induction os with
  | nil => simp [insertOption, lookupOption, h]
  | cons e rest ih =>
    obtain ⟨k0, w⟩ := e
    simp only [insertOption]
    split
    · simp [lookupOption, h]
    · split
      · rename_i heq
        subst heq
        simp [lookupOption, h]
      · simp only [lookupOption, ih]

theorem optionsSorted_tail (e : OptionId × Value) (rest : Options)
    (h : optionsSorted (e :: rest) = true) : optionsSorted rest = true := by
  cases rest with
  | nil => rfl
  | cons f fs => simp only [optionsSorted, Bool.and_eq_true] at h; exact h.2

theorem optionsSorted_head_lt (k : OptionId) (v : Value) (rest : Options)
    (h : optionsSorted ((k, v) :: rest) = true) :
    ∀ e ∈ rest, idLt k e.1 = true := by
  induction rest generalizing k v with
  | nil => intro e he; cases he
  | cons f fs ih =>
    intro e he
    have h1 : idLt k f.1 = true := by
      simp only [optionsSorted, Bool.and_eq_true] at h
      exact h.1
    cases he with
    | head => exact h1
    | tail _ hmem =>
      have h2 : optionsSorted (f :: fs) = true := optionsSorted_tail _ _ h
      have := ih f.1 f.2 h2 e hmem
      exact idLt_trans _ _ _ h1 this

theorem optionsSorted_dropWhile (p : OptionId × Value → Bool) (os : Options)
    (h : optionsSorted os = true) : optionsSorted (os.dropWhile p) = true := by
  induction os with
  | nil => simpa using h
  | cons e rest ih =>
    rw [List.dropWhile_cons]
    split
    · exact ih (optionsSorted_tail _ _ h)
    · exact h

theorem dropWhile_ge_stem (stem : OptionId) (os : Options)
    (h : optionsSorted os = true) :
    ∀ e ∈ os.dropWhile (fun e => idLt e.1 stem), idLt e.1 stem = false := by
  induction os with
  | nil => intro e he; simp at he
  | cons f rest ih =>
    rw [List.dropWhile_cons]
    split
    · exact ih (optionsSorted_tail _ _ h)
    · rename_i hf
      intro e he
      simp only [Bool.not_eq_true] at hf
      cases he with
      | head => exact hf
      | tail _ hmem =>
        have hlt : idLt f.1 e.1 = true := optionsSorted_head_lt f.1 f.2 rest h e hmem
        exact idLt_le_of_lt stem f.1 e.1 hf hlt

theorem matchingIds_dropWhile (stem : OptionId) (os : Options) :
    matchingIds (os.dropWhile (fun e => idLt e.1 stem)) stem = matchingIds os stem := by
  induction os with
  | nil => rfl
  | cons f rest ih =>
    rw [List.dropWhile_cons]
    split
    · rename_i hf
      have hsw : idStartsWith f.1 stem = false := by
        cases hh : idStartsWith f.1 stem
        · rfl
        · have := idLt_eq_false_of_startsWith stem f.1 hh
          rw [this] at hf
          cases hf
      rw [ih]
      simp [matchingIds, listOptions, hsw]
    · rfl

theorem findOptionsGo_eq (stem : OptionId) (m : OptionId → Bool) (ts : Options)
    (hs : optionsSorted ts = true)
    (hge : ∀ e ∈ ts, idLt e.1 stem = false) :
    findOptionsGo stem m ts = visitUpTo m (matchingIds ts stem) := by
  induction ts with
  | nil => rfl
  | cons f rest ih =>
    obtain ⟨k, v⟩ := f
    cases hsw : idStartsWith k stem with
    | false =>
      have hrest : ∀ e ∈ rest, idStartsWith e.1 stem = false := by
        intro e hmem
        have hlt := optionsSorted_head_lt k v rest hs e hmem
        exact idStartsWith_eq_false_of_next stem k e.1 (hge (k, v) (by simp)) hsw hlt
      have hm : matchingIds ((k, v) :: rest) stem = [] := by
        simp only [matchingIds, listOptions, List.map_cons, List.filter_cons, hsw]
        rw [if_neg (by simp)]
        rw [List.filter_eq_nil_iff]
        intro a ha
        simp only [List.mem_map] at ha
        obtain ⟨e, hmem, rfl⟩ := ha
        simp [hrest e hmem]
      simp [findOptionsGo, hsw, hm, visitUpTo]
    | true =>
      have hmcons : matchingIds ((k, v) :: rest) stem = k :: matchingIds rest stem := by
        simp [matchingIds, listOptions, hsw]
      cases hmk : m k with
      | true =>
        have ihh := ih (optionsSorted_tail _ _ hs)
          (fun e he => hge e (List.mem_cons_of_mem _ he))
        have hgo : findOptionsGo stem m ((k, v) :: rest) = k :: findOptionsGo stem m rest := by
          simp [findOptionsGo, hsw, hmk]
        rw [hgo, hmcons, ihh]
        simp [visitUpTo, List.takeWhile_cons, List.dropWhile_cons, hmk]
      | false =>
        have hgo : findOptionsGo stem m ((k, v) :: rest) = [k] := by
          simp [findOptionsGo, hsw, hmk]
        rw [hgo, hmcons]
        simp [visitUpTo, List.takeWhile_cons, List.dropWhile_cons, hmk]

/-- C9: `OptionsBundle.findOptions(idSearchString, matcher)` visits exactly
the options of the bundle whose id starts with the search string, in
ascending id order (the storage order of the sorted bundle), truncated at the
first option on which the matcher returns `false` (that option is visited and
none after it); options whose id does not start with the search string are
never visited. -/
theorem C9_findOptions_matching_ordered_early_stop (os : Options)
    (stem : OptionId) (m : OptionId → Bool) (hs : optionsSorted os = true) :
    findOptions os stem m = visitUpTo m (matchingIds os stem) ∧
    ∀ k ∈ findOptions os stem m, idStartsWith k stem = true := by
  have h1 : findOptions os stem m = visitUpTo m (matchingIds os stem) := by
    unfold findOptions
    rw [findOptionsGo_eq stem m _ (optionsSorted_dropWhile _ _ hs)
      (dropWhile_ge_stem stem os hs), matchingIds_dropWhile]
  refine ⟨h1, ?_⟩
  intro k hk
  rw [h1] at hk
  have hmem : k ∈ matchingIds os stem := by
    simp only [visitUpTo] at hk
    rcases List.mem_append.1 hk with h | h
    · exact (List.takeWhile_sublist m).subset h
    · exact ((List.take_sublist _ _).trans (List.dropWhile_sublist m)).subset h
  exact (List.mem_filter.1 hmem).2

/-- Witness for C9 at the concrete bundle with ids "a", "ab", "b" and search
string "a": the options "a" and "ab" are visited in order and "b" is not. -/
theorem C9_findOptions_witness :
    optionsSorted sampleBundle = true ∧
    (findOptions sampleBundle ['a'] (fun _ => true) =
        visitUpTo (fun _ => true) (matchingIds sampleBundle ['a']) ∧
      ∀ k ∈ findOptions sampleBundle ['a'] (fun _ => true),
        idStartsWith k ['a'] = true) ∧
    findOptions sampleBundle ['a'] (fun _ => true) = [['a'], ['a', 'b']] :=
  ⟨by decide,
   C9_findOptions_matching_ordered_early_stop sampleBundle ['a'] (fun _ => true)
     (by decide),
   by decide⟩

theorem Value.clone_eq (v : Value) : v.clone = v := rfl

theorem mergeSpec_none (v : Value) : mergeSpec none v = v := by
  cases v <;> rfl

theorem mergeSpec_scalar (s : Int) (v : Value) :
    mergeSpec (some (Value.scalar s)) v = v := by
  cases v <;> rfl

theorem lookupOption_cons_ne (k0 : OptionId) (w : Value) (rest : Options)
    (k : OptionId) (h : k ≠ k0) :
    lookupOption ((k0, w) :: rest) k = lookupOption rest k := by
  simp [lookupOption, h]

theorem lookupOption_eq_none_of_not_mem (os : Options) (k : OptionId)
    (h : k ∉ listOptions os) : lookupOption os k = none := by
  induction os with
  | nil => rfl
  | cons e rest ih =>
    obtain ⟨k0, w⟩ := e
    simp only [listOptions, List.map_cons, List.mem_cons, not_or] at h
    simp only [lookupOption]
    rw [if_neg h.1]
    have h2 : k ∉ listOptions rest := by
      unfold listOptions
      exact h.2
    exact ih h2

theorem addImplStep_lookup_ne (implOpts : Options) (e : OptionId × Value)
    (k : OptionId) (h : k ≠ e.1) :
    lookupOption (addImplStep implOpts e) k = lookupOption implOpts k := by
  obtain ⟨k0, v0⟩ := e
  replace h : k ≠ k0 := h
  cases him : lookupOption implOpts k0 with
  | none => simp [addImplStep, him, lookupOption_insert_ne _ _ _ _ h]
  | some oldv =>
    cases oldv with
    | scalar s => simp [addImplStep, him, lookupOption_insert_ne _ _ _ _ h]
    | multi ex =>
      cases v0 with
      | scalar s => simp [addImplStep, him]
      | multi ns => simp [addImplStep, him, lookupOption_insert_ne _ _ _ _ h]

theorem addImplementationOptions_lookup (config : Options) :
    ∀ implOpts : Options, (listOptions config).Nodup →
    (∀ k ex v, lookupOption implOpts k = some (Value.multi ex) →
      lookupOption config k = some v → v.isMulti = true) →
    ∀ k, lookupOption (addImplementationOptions implOpts config) k =
      mergeSpecAt implOpts config k := by
  induction config with
  | nil =>
    intro implOpts _ _ k
    simp [addImplementationOptions, mergeSpecAt, lookupOption]
  | cons e rest ih =>
    intro implOpts hnd hkind k
    have hfold : addImplementationOptions implOpts (e :: rest) =
        addImplementationOptions (addImplStep implOpts e) rest := rfl
    have hnd1 : e.1 ∉ listOptions rest := by
      simp only [listOptions, List.map_cons, List.nodup_cons] at hnd
      exact hnd.1
    have hndr : (listOptions rest).Nodup := by
      simp only [listOptions, List.map_cons, List.nodup_cons] at hnd
      exact hnd.2
    have hlrest : lookupOption rest e.1 = none :=
      lookupOption_eq_none_of_not_mem rest e.1 hnd1
    have hkind2 : ∀ k2 ex v,
        lookupOption (addImplStep implOpts e) k2 = some (Value.multi ex) →
        lookupOption rest k2 = some v → v.isMulti = true := by
      intro k2 ex v h1 h2
      by_cases hk2 : k2 = e.1
      · subst hk2
        rw [hlrest] at h2
        cases h2
      · rw [addImplStep_lookup_ne implOpts e k2 hk2] at h1
        have h2c : lookupOption (e :: rest) k2 = some v := by
          obtain ⟨k0, w⟩ := e
          rw [lookupOption_cons_ne k0 w rest k2 hk2]
          exact h2
        exact hkind k2 ex v h1 h2c
    rw [hfold, ih (addImplStep implOpts e) hndr hkind2 k]
    by_cases hk : k = e.1
    · subst hk
      obtain ⟨k0, v0⟩ := e
      have hl0 : lookupOption ((k0, v0) :: rest) k0 = some v0 := by
        simp [lookupOption]
      simp only [mergeSpecAt, hlrest, hl0]
      cases him : lookupOption implOpts k0 with
      | none =>
        simp [addImplStep, him, lookupOption_insert_self, Value.clone_eq,
          mergeSpec_none]
      | some oldv =>
        cases oldv with
        | scalar s =>
          simp [addImplStep, him, lookupOption_insert_self, Value.clone_eq,
            mergeSpec_scalar]
        | multi ex =>
          cases v0 with
          | scalar s =>
            have : (Value.scalar s).isMulti = true :=
              hkind k0 ex (Value.scalar s) him hl0
            cases this
          | multi ns =>
            simp [addImplStep, him, lookupOption_insert_self, mergeSpec]
    · obtain ⟨k0, v0⟩ := e
      have hne : k ≠ k0 := hk
      simp only [mergeSpecAt, addImplStep_lookup_ne implOpts (k0, v0) k hne,
        lookupOption_cons_ne k0 v0 rest k hne]

/-- C6: `CaptureConfig.Builder.addImplementationOptions(config)` merges each
option of the argument into the builder's options: when existing and new
values are both multi-value sets the result is their union, otherwise the
new value (a clone, when it is a multi-value set) overwrites the existing
one; merging the bundles a ↦ 1, b ↦ [10] and then b ↦ [20], c ↦ 3 into an
empty builder therefore yields a ↦ 1, b ↦ [10, 20], c ↦ 3. The kind
hypothesis states that an option id occurring in both stores carries values
of one kind, the `Config.Option` typing contract of the source. -/
theorem C6_addImplementationOptions_merge (implOpts config : Options)
    (hnd : (listOptions config).Nodup)
    (hkind : ∀ k ex v, lookupOption implOpts k = some (Value.multi ex) →
      lookupOption config k = some v → v.isMulti = true) :
    (∀ k, lookupOption (addImplementationOptions implOpts config) k =
      mergeSpecAt implOpts config k) ∧
    ((CaptureConfigBuilder.empty.addImplementationOptions
          [(['a'], Value.scalar 1), (['b'], Value.multi [10])]).addImplementationOptions
        [(['b'], Value.multi [20]), (['c'], Value.scalar 3)]).implementationOptions =
      [(['a'], Value.scalar 1), (['b'], Value.multi [10, 20]), (['c'], Value.scalar 3)] :=
  ⟨addImplementationOptions_lookup config implOpts hnd hkind, by decide⟩

/-- Witness for C6: the characterization applied at the concrete pair of
bundles of the end-to-end scenario. -/
theorem C6_addImplementationOptions_witness :
    (∀ k, lookupOption
        (addImplementationOptions [(['a'], Value.scalar 1), (['b'], Value.multi [10])]
          [(['b'], Value.multi [20]), (['c'], Value.scalar 3)]) k =
      mergeSpecAt [(['a'], Value.scalar 1), (['b'], Value.multi [10])]
        [(['b'], Value.multi [20]), (['c'], Value.scalar 3)] k) ∧
    ((CaptureConfigBuilder.empty.addImplementationOptions
          [(['a'], Value.scalar 1), (['b'], Value.multi [10])]).addImplementationOptions
        [(['b'], Value.multi [20]), (['c'], Value.scalar 3)]).implementationOptions =
      [(['a'], Value.scalar 1), (['b'], Value.multi [10, 20]), (['c'], Value.scalar 3)] :=
  C6_addImplementationOptions_merge
    [(['a'], Value.scalar 1), (['b'], Value.multi [10])]
    [(['b'], Value.multi [20]), (['c'], Value.scalar 3)]
    (by decide)
    (by
      intro k ex v h1 h2
      by_cases hb : k = ['b']
      · subst hb
        have hc : lookupOption [(['b'], Value.multi [20]), (['c'], Value.scalar 3)]
            ['b'] = some (Value.multi [20]) := by decide
        rw [hc] at h2
        rw [← Option.some.inj h2]
        rfl
      · by_cases ha : k = ['a']
        · subst ha
          have hc : lookupOption [(['a'], Value.scalar 1), (['b'], Value.multi [10])]
              ['a'] = some (Value.scalar 1) := by decide
          rw [hc] at h1
          simp at h1
        · have hc : lookupOption [(['a'], Value.scalar 1), (['b'], Value.multi [10])]
              k = none := by
            simp [lookupOption, ha, hb]
          rw [hc] at h1
          cases h1)

theorem addAllCCC_shape (cs : List Nat) : ∀ b b' : CaptureConfigBuilder,
    b.addAllCameraCaptureCallbacks cs = .ok b' →
    b' = { b with cameraCaptureCallbacks := b'.cameraCaptureCallbacks } := by
  induction cs with
  | nil =>
    intro b b' h
    cases h
    rfl
  | cons c cs ih =>
    intro b b' h
    unfold CaptureConfigBuilder.addAllCameraCaptureCallbacks at h
    cases hc : b.addCameraCaptureCallback c with
    | error e => rw [hc] at h; cases h
    | ok b1 =>
      rw [hc] at h
      have hb1 : b1 = { b with cameraCaptureCallbacks := b1.cameraCaptureCallbacks } := by
        unfold CaptureConfigBuilder.addCameraCaptureCallback at hc
        split at hc
        · cases hc
        · cases hc; rfl
      have := ih b1 b' h
      rw [this, hb1]

theorem addAllCCC_ok_of (cs : List Nat) : ∀ b : CaptureConfigBuilder,
    (∀ c ∈ cs, c ∉ b.cameraCaptureCallbacks) → cs.Nodup →
    b.addAllCameraCaptureCallbacks cs =
      .ok { b with cameraCaptureCallbacks := b.cameraCaptureCallbacks ++ cs } := by
  induction cs with
  | nil =>
    intro b _ _
    simp [CaptureConfigBuilder.addAllCameraCaptureCallbacks]
  | cons c cs ih =>
    intro b hdisj hnd
    have hc : b.addCameraCaptureCallback c =
        .ok { b with cameraCaptureCallbacks := b.cameraCaptureCallbacks ++ [c] } := by
      unfold CaptureConfigBuilder.addCameraCaptureCallback
      rw [if_neg]
      intro hmem
      exact hdisj c (List.mem_cons_self c cs) (by simpa using hmem)
    unfold CaptureConfigBuilder.addAllCameraCaptureCallbacks
    rw [hc]
    have hdisj2 : ∀ d ∈ cs,
        d ∉ ({ b with cameraCaptureCallbacks := b.cameraCaptureCallbacks ++ [c] } :
          CaptureConfigBuilder).cameraCaptureCallbacks := by
      intro d hd
      simp only [List.mem_append, List.mem_singleton, not_or]
      constructor
      · exact hdisj d (List.mem_cons_of_mem _ hd)
      · intro hdc
        subst hdc
        exact (List.nodup_cons.1 hnd).1 hd
    have := ih { b with cameraCaptureCallbacks := b.cameraCaptureCallbacks ++ [c] }
      hdisj2 (List.nodup_cons.1 hnd).2
    simpa [List.append_assoc] using this

theorem addCCC_withTag (b : CaptureConfigBuilder) (c : Nat) (t : Option Int) :
    (b.withTag t).addCameraCaptureCallback c =
      (b.addCameraCaptureCallback c).map (fun r => r.withTag t) := by
  simp only [CaptureConfigBuilder.addCameraCaptureCallback,
    CaptureConfigBuilder.withTag]
  split <;> rfl

theorem addAllCCC_withTag (cs : List Nat) : ∀ (b : CaptureConfigBuilder) (t : Option Int),
    (b.withTag t).addAllCameraCaptureCallbacks cs =
      (b.addAllCameraCaptureCallbacks cs).map (fun r => r.withTag t) := by
  induction cs with
  | nil => intro b t; rfl
  | cons c cs ih =>
    intro b t
    unfold CaptureConfigBuilder.addAllCameraCaptureCallbacks
    rw [addCCC_withTag]
    cases hc : b.addCameraCaptureCallback c with
    | error e => rfl
    | ok b1 => exact ih b1 t

theorem addSurfacesOf_withTag (b : ValidatingBuilder) (sc : SessionConfig)
    (t : Option Int) :
    (b.withTag t).addSurfacesOf sc = (b.addSurfacesOf sc).withTag t := by
  simp only [ValidatingBuilder.addSurfacesOf]
  rw [apply_ite (fun x : ValidatingBuilder => x.withTag t)]
  rfl

theorem checkOptions_withTag (b : ValidatingBuilder) (os : Options) (t : Option Int) :
    (b.withTag t).checkOptions os = (b.checkOptions os).withTag t := rfl

theorem appendSessionCallbacks_retag (b : ValidatingBuilder) (sc : SessionConfig)
    (t : Int) :
    b.appendSessionCallbacks (retagSession t sc) = b.appendSessionCallbacks sc := rfl

theorem appendSingleCallbacks_retag (b : ValidatingBuilder) (sc : SessionConfig)
    (t : Int) :
    b.appendSingleCallbacks (retagSession t sc) = b.appendSingleCallbacks sc := rfl

theorem addSurfacesOf_retag (b : ValidatingBuilder) (sc : SessionConfig) (t : Int) :
    b.addSurfacesOf (retagSession t sc) = b.addSurfacesOf sc := rfl

theorem setTag_as_withTag (b : ValidatingBuilder) (t u : Int) :
    b.setTag t = (b.setTag u).withTag (some t) := rfl

theorem appendSessionCallbacks_withTag (b : ValidatingBuilder) (sc : SessionConfig)
    (u : Option Int) :
    (b.withTag u).appendSessionCallbacks sc = (b.appendSessionCallbacks sc).withTag u := rfl

theorem appendSingleCallbacks_withTag (b : ValidatingBuilder) (sc : SessionConfig)
    (u : Option Int) :
    (b.withTag u).appendSingleCallbacks sc = (b.appendSingleCallbacks sc).withTag u := rfl

theorem setCCB_withTag (b : ValidatingBuilder) (ccb : CaptureConfigBuilder)
    (u : Option Int) :
    (b.withTag u).setCCB (ccb.withTag u) = (b.setCCB ccb).withTag u := rfl

theorem withTag_ccb (b : ValidatingBuilder) (u : Option Int) :
    (b.withTag u).captureConfigBuilder = b.captureConfigBuilder.withTag u := rfl

theorem add_retag (b : ValidatingBuilder) (sc : SessionConfig) (t : Int) :
    b.add (retagSession t sc) = (b.add sc).map (fun r => r.withTag (some t)) := by
  have hcc : (retagSession t sc).repeatingCaptureConfig.templateType =
      sc.repeatingCaptureConfig.templateType := rfl
  have hcb : (retagSession t sc).repeatingCaptureConfig.cameraCaptureCallbacks =
      sc.repeatingCaptureConfig.cameraCaptureCallbacks := rfl
  have hio : (retagSession t sc).repeatingCaptureConfig.implementationOptions =
      sc.repeatingCaptureConfig.implementationOptions := rfl
  have htg : (retagSession t sc).repeatingCaptureConfig.tag = t := rfl
  simp only [ValidatingBuilder.add, hcc, hcb, hio, htg,
    appendSessionCallbacks_retag, appendSingleCallbacks_retag, addSurfacesOf_retag]
  rw [setTag_as_withTag (b.checkTemplate sc.repeatingCaptureConfig.templateType) t
    sc.repeatingCaptureConfig.tag]
  rw [appendSessionCallbacks_withTag, withTag_ccb, addAllCCC_withTag]
  cases hres : ((b.checkTemplate
      sc.repeatingCaptureConfig.templateType).setTag
        sc.repeatingCaptureConfig.tag).appendSessionCallbacks
          sc |>.captureConfigBuilder.addAllCameraCaptureCallbacks
            sc.repeatingCaptureConfig.cameraCaptureCallbacks with
  | error e => rfl
  | ok ccb =>
    show Except.ok _ = Except.ok _
    rw [setCCB_withTag, appendSingleCallbacks_withTag, addSurfacesOf_withTag,
      checkOptions_withTag]

theorem checkOptions_ccb_tag (b : ValidatingBuilder) (os : Options) :
    (b.checkOptions os).captureConfigBuilder.tag = b.captureConfigBuilder.tag := rfl

theorem addSurfacesOf_ccb_tag (b : ValidatingBuilder) (sc : SessionConfig) :
    (b.addSurfacesOf sc).captureConfigBuilder.tag = b.captureConfigBuilder.tag := by
  simp only [ValidatingBuilder.addSurfacesOf]
  split <;> rfl

theorem add_tag (b : ValidatingBuilder) (sc : SessionConfig)
    (b' : ValidatingBuilder) (h : b.add sc = .ok b') :
    b'.captureConfigBuilder.tag = some sc.repeatingCaptureConfig.tag := by
  simp only [ValidatingBuilder.add] at h
  cases hres : (((b.checkTemplate
      sc.repeatingCaptureConfig.templateType).setTag
        sc.repeatingCaptureConfig.tag).appendSessionCallbacks
          sc).captureConfigBuilder.addAllCameraCaptureCallbacks
            sc.repeatingCaptureConfig.cameraCaptureCallbacks with
  | error e => rw [hres] at h; cases h
  | ok ccb =>
    rw [hres] at h
    cases h
    rw [checkOptions_ccb_tag, addSurfacesOf_ccb_tag]
    have hshape := addAllCCC_shape _ _ _ hres
    have : ccb.tag = (((b.checkTemplate
        sc.repeatingCaptureConfig.templateType).setTag
          sc.repeatingCaptureConfig.tag).appendSessionCallbacks
            sc).captureConfigBuilder.tag := by
      rw [hshape]
    exact this

theorem addAll_last_tag (cs : List SessionConfig) : ∀ (b0 b' : ValidatingBuilder)
    (hne : cs ≠ []), ValidatingBuilder.addAll b0 cs = .ok b' →
    ∃ d, cs.getLast? = some d ∧
      b'.captureConfigBuilder.tag = some d.repeatingCaptureConfig.tag := by
  induction cs with
  | nil => intro b0 b' hne; exact absurd rfl hne
  | cons c cs ih =>
    intro b0 b' _ h
    unfold ValidatingBuilder.addAll at h
    cases hadd : b0.add c with
    | error e => rw [hadd] at h; cases h
    | ok b1 =>
      rw [hadd] at h
      cases cs with
      | nil =>
        cases h
        exact ⟨c, rfl, add_tag b0 c b' hadd⟩
      | cons c2 cs2 =>
        obtain ⟨d, hd1, hd2⟩ := ih b1 b' (by simp) h
        exact ⟨d, by rw [List.getLast?_cons_cons]; exact hd1, hd2⟩

theorem build_tag_of (b : ValidatingBuilder) (t : Int)
    (htag : b.captureConfigBuilder.tag = some t) (out : SessionConfig)
    (h : b.build = .ok out) : out.repeatingCaptureConfig.tag = t := by
  unfold ValidatingBuilder.build at h
  split at h
  · cases h
  · cases hbb : b.captureConfigBuilder.build with
    | error e => rw [hbb] at h; cases h
    | ok cc =>
      rw [hbb] at h
      cases h
      unfold CaptureConfigBuilder.build at hbb
      rw [htag] at hbb
      cases hbb
      rfl

/-- C7: each `ValidatingBuilder.add(sessionConfig)` unconditionally
overwrites the accumulated tag with the tag of the argument's repeating
capture config, with no conflict check; tags have no effect on any other
part of the accumulated state — in particular none on validity — and the
combined configuration built after a sequence of adds carries the tag of the
last `SessionConfig` added. -/
theorem C7_tag_last_wins :
    (∀ b sc b', ValidatingBuilder.add b sc = .ok b' →
      b'.captureConfigBuilder.tag = some sc.repeatingCaptureConfig.tag) ∧
    (∀ (b : ValidatingBuilder) sc t, b.add (retagSession t sc) =
      (b.add sc).map (fun r => r.withTag (some t))) ∧
    (∀ (b : ValidatingBuilder) sc t b' b'', b.add sc = .ok b' →
      b.add (retagSession t sc) = .ok b'' →
      b''.isValid = b'.isValid ∧ b''.valid = b'.valid ∧
        b''.templateSet = b'.templateSet) ∧
    (∀ cs (b0 b' : ValidatingBuilder) out, cs ≠ [] →
      ValidatingBuilder.addAll b0 cs = .ok b' → b'.build = .ok out →
      ∃ d, cs.getLast? = some d ∧
        out.repeatingCaptureConfig.tag = d.repeatingCaptureConfig.tag) := by
  refine ⟨add_tag, add_retag, ?_, ?_⟩
  · intro b sc t b' b'' h1 h2
    rw [add_retag, h1] at h2
    cases h2
    exact ⟨rfl, rfl, rfl⟩
  · intro cs b0 b' out hne h1 h2
    obtain ⟨d, hd1, hd2⟩ := addAll_last_tag cs b0 b' hne h1
    exact ⟨d, hd1, build_tag_of b' d.repeatingCaptureConfig.tag hd2 out h2⟩

/-- Witness for C7: merging two concrete configs tagged 5 and 7 builds a
combined config tagged 7, via the theorem's last-config clause. -/
theorem C7_tag_witness :
    ([sampleSession 5] ++ [sampleSession 7]) ≠ [] ∧
    ValidatingBuilder.addAll ValidatingBuilder.empty
        ([sampleSession 5] ++ [sampleSession 7]) =
      .ok { surfaces := [1]
            captureConfigBuilder :=
              { surfaces := [1]
                templateType := 2
                isUseRepeatingSurface := false
                cameraCaptureCallbacks := []
                tag := some 7
                implementationOptions := [] }
            deviceStateCallbacks := []
            sessionStateCallbacks := []
            singleCameraCaptureCallbacks := []
            valid := true
            templateSet := true } ∧
    ({ surfaces := [1]
       captureConfigBuilder :=
         { surfaces := [1]
           templateType := 2
           isUseRepeatingSurface := false
           cameraCaptureCallbacks := []
           tag := some 7
           implementationOptions := [] }
       deviceStateCallbacks := []
       sessionStateCallbacks := []
       singleCameraCaptureCallbacks := []
       valid := true
       templateSet := true } : ValidatingBuilder).build =
      .ok { surfaces := [1]
            deviceStateCallbacks := []
            sessionStateCallbacks := []
            singleCameraCaptureCallbacks := []
            repeatingCaptureConfig :=
              { surfaces := [1]
                implementationOptions := []
                templateType := 2
                cameraCaptureCallbacks := []
                isUseRepeatingSurface := false
                tag := 7 } } ∧
    ({ surfaces := [1]
       deviceStateCallbacks := []
       sessionStateCallbacks := []
       singleCameraCaptureCallbacks := []
       repeatingCaptureConfig :=
         { surfaces := [1]
           implementationOptions := []
           templateType := 2
           cameraCaptureCallbacks := []
           isUseRepeatingSurface := false
           tag := 7 } } : SessionConfig).repeatingCaptureConfig.tag = 7 := by
  refine ⟨by decide, by rfl, by rfl, ?_⟩
  obtain ⟨d, hd, htag⟩ := C7_tag_last_wins.2.2.2
    ([sampleSession 5] ++ [sampleSession 7]) ValidatingBuilder.empty
    { surfaces := [1]
      captureConfigBuilder :=
        { surfaces := [1]
          templateType := 2
          isUseRepeatingSurface := false
          cameraCaptureCallbacks := []
          tag := some 7
          implementationOptions := [] }
      deviceStateCallbacks := []
      sessionStateCallbacks := []
      singleCameraCaptureCallbacks := []
      valid := true
      templateSet := true }
    { surfaces := [1]
      deviceStateCallbacks := []
      sessionStateCallbacks := []
      singleCameraCaptureCallbacks := []
      repeatingCaptureConfig :=
        { surfaces := [1]
          implementationOptions := []
          templateType := 2
          cameraCaptureCallbacks := []
          isUseRepeatingSurface := false
          tag := 7 } }
    (by decide) (by rfl) (by rfl)
  have hdval : d = sampleSession 7 := by
    have hl : ([sampleSession 5] ++ [sampleSession 7]).getLast? =
        some (sampleSession 7) := by decide
    rw [hl] at hd
    exact (Option.some.inj hd).symm
  rw [htag, hdval]
  rfl

theorem checkOptionsFold_mono (old : Options) (es : List (OptionId × Value)) :
    ∀ (as : Options) (v : Bool),
    (es.foldl (checkOptionsStep old) (as, v)).2 = true → v = true := by
  induction es with
  | nil => intro as v h; exact h
  | cons e es ih =>
    intro as v h
    rw [List.foldl_cons] at h
    unfold checkOptionsStep at h
    split at h
    · split at h
      · exact ih as v h
      · exact absurd (ih as false h) (by simp)
    · exact ih _ v h

theorem checkOptions_valid_mono (b : ValidatingBuilder) (os : Options)
    (h : (b.checkOptions os).valid = true) : b.valid = true := by
  simp only [ValidatingBuilder.checkOptions] at h
  exact checkOptionsFold_mono _ os [] b.valid h

theorem addSurfacesOf_valid_mono (b : ValidatingBuilder) (sc : SessionConfig)
    (h : (b.addSurfacesOf sc).valid = true) : b.valid = true := by
  simp only [ValidatingBuilder.addSurfacesOf] at h
  split at h
  · exact h
  · exact absurd h (by simp)

theorem checkTemplate_valid_mono (b : ValidatingBuilder) (t : Int)
    (h : (b.checkTemplate t).valid = true) : b.valid = true := by
  unfold ValidatingBuilder.checkTemplate at h
  split at h
  · exact h
  · split at h
    · exact h
    · exact absurd h (by simp)

theorem add_valid_mono (b : ValidatingBuilder) (sc : SessionConfig)
    (b' : ValidatingBuilder) (h : b.add sc = .ok b') (hv : b'.valid = true) :
    b.valid = true := by
  simp only [ValidatingBuilder.add] at h
  cases hres : (((b.checkTemplate
      sc.repeatingCaptureConfig.templateType).setTag
        sc.repeatingCaptureConfig.tag).appendSessionCallbacks
          sc).captureConfigBuilder.addAllCameraCaptureCallbacks
            sc.repeatingCaptureConfig.cameraCaptureCallbacks with
  | error e => rw [hres] at h; cases h
  | ok ccb =>
    rw [hres] at h
    cases h
    have h1 := checkOptions_valid_mono _ _ hv
    have h2 := addSurfacesOf_valid_mono _ _ h1
    exact checkTemplate_valid_mono b sc.repeatingCaptureConfig.templateType h2

theorem checkTemplate_templateSet (b : ValidatingBuilder) (t : Int) :
    (b.checkTemplate t).templateSet = true := by
  unfold ValidatingBuilder.checkTemplate
  split
  · rfl
  · rename_i hset
    have hb : b.templateSet = true := by simpa using hset
    split <;> simpa using hb

theorem addSurfacesOf_templateSet (b : ValidatingBuilder) (sc : SessionConfig) :
    (b.addSurfacesOf sc).templateSet = b.templateSet := by
  simp only [ValidatingBuilder.addSurfacesOf]
  split <;> rfl

theorem checkOptions_templateSet (b : ValidatingBuilder) (os : Options) :
    (b.checkOptions os).templateSet = b.templateSet := rfl

theorem add_templateSet (b : ValidatingBuilder) (sc : SessionConfig)
    (b' : ValidatingBuilder) (h : b.add sc = .ok b') : b'.templateSet = true := by
  simp only [ValidatingBuilder.add] at h
  cases hres : (((b.checkTemplate
      sc.repeatingCaptureConfig.templateType).setTag
        sc.repeatingCaptureConfig.tag).appendSessionCallbacks
          sc).captureConfigBuilder.addAllCameraCaptureCallbacks
            sc.repeatingCaptureConfig.cameraCaptureCallbacks with
  | error e => rw [hres] at h; cases h
  | ok ccb =>
    rw [hres] at h
    cases h
    rw [checkOptions_templateSet, addSurfacesOf_templateSet]
    exact checkTemplate_templateSet b sc.repeatingCaptureConfig.templateType

theorem addAll_templateSet (cs : List SessionConfig) :
    ∀ b0 b' : ValidatingBuilder, ValidatingBuilder.addAll b0 cs = .ok b' →
    b'.templateSet = (b0.templateSet || !cs.isEmpty) := by
  induction cs with
  | nil =>
    intro b0 b' h
    cases h
    simp
  | cons c cs ih =>
    intro b0 b' h
    unfold ValidatingBuilder.addAll at h
    cases hadd : b0.add c with
    | error e => rw [hadd] at h; cases h
    | ok b1 =>
      rw [hadd] at h
      have := ih b1 b' h
      rw [this, add_templateSet b0 c b1 hadd]
      simp

theorem build_of_invalid (b : ValidatingBuilder) (h : b.valid = false) :
    b.build = .error .configurationConflict := by
  unfold ValidatingBuilder.build
  rw [if_pos h]

theorem build_ne_conflict_of_valid (b : ValidatingBuilder) (h : b.valid = true) :
    b.build ≠ .error .configurationConflict := by
  unfold ValidatingBuilder.build
  rw [if_neg (by simp [h])]
  cases hbb : b.captureConfigBuilder.build with
  | error e =>
    unfold CaptureConfigBuilder.build at hbb
    split at hbb
    · cases hbb; simp
    · cases hbb
  | ok cc => simp

/-- C1, amended: `isValid` is true exactly when a template type has been set
by some `add` call and no conflict has been detected, but `build()` throws
the configuration-conflict error exactly when a conflict was detected
(`valid == false`): when no `SessionConfig` was ever added, `isValid` is
false yet `build()` does not raise the configuration-conflict error — it
fails instead with the uninitialized-`lateinit`-tag error of
`CaptureConfig.Builder.build()`. -/
theorem C1_isValid_and_build (cs : List SessionConfig) (b : ValidatingBuilder)
    (h : ValidatingBuilder.addAll ValidatingBuilder.empty cs = .ok b) :
    b.isValid = (b.templateSet && b.valid) ∧
    b.templateSet = !cs.isEmpty ∧
    (b.valid = false → b.build = .error .configurationConflict) ∧
    (b.valid = true → b.build ≠ .error .configurationConflict) ∧
    (cs = [] → b.isValid = false ∧ b.build = .error .uninitializedTag) := by
  refine ⟨rfl, ?_, build_of_invalid b, build_ne_conflict_of_valid b, ?_⟩
  · have := addAll_templateSet cs ValidatingBuilder.empty b h
    simpa using this
  · intro hnil
    subst hnil
    cases h
    exact ⟨rfl, rfl⟩

/-- Counterexample for C1 as stated: on a fresh `ValidatingBuilder` (no
`SessionConfig` ever added) `isValid` is false, yet `build()` raises the
uninitialized-tag error, not the configuration-conflict error. -/
theorem C1_counterexample :
    ValidatingBuilder.addAll ValidatingBuilder.empty [] = .ok ValidatingBuilder.empty ∧
    ValidatingBuilder.empty.isValid = false ∧
    ValidatingBuilder.empty.build = .error .uninitializedTag ∧
    (Except.error BuilderError.uninitializedTag :
      Except BuilderError SessionConfig) ≠ .error .configurationConflict :=
  ⟨rfl, rfl, rfl, by simp⟩

/-- Witness for C1's amended claim at a concrete one-config merge. -/
theorem C1_witness :
    ValidatingBuilder.addAll ValidatingBuilder.empty [sampleSession 5] =
      .ok { surfaces := [1]
            captureConfigBuilder :=
              { surfaces := [1]
                templateType := 2
                isUseRepeatingSurface := false
                cameraCaptureCallbacks := []
                tag := some 5
                implementationOptions := [] }
            deviceStateCallbacks := []
            sessionStateCallbacks := []
            singleCameraCaptureCallbacks := []
            valid := true
            templateSet := true } ∧
    ({ surfaces := [1]
       captureConfigBuilder :=
         { surfaces := [1]
           templateType := 2
           isUseRepeatingSurface := false
           cameraCaptureCallbacks := []
           tag := some 5
           implementationOptions := [] }
       deviceStateCallbacks := []
       sessionStateCallbacks := []
       singleCameraCaptureCallbacks := []
       valid := true
       templateSet := true } : ValidatingBuilder).templateSet =
      !([sampleSession 5].isEmpty) := by
  refine ⟨by rfl, ?_⟩
  exact (C1_isValid_and_build [sampleSession 5] _ (by rfl)).2.1

theorem idLt_total (a b : OptionId) (h1 : idLt a b = false) (h2 : a ≠ b) :
    idLt b a = true := by
  induction a generalizing b with
  | nil =>
    cases b with
    | nil => exact absurd rfl h2
    | cons y ys => exact absurd h1 (by simp [idLt])
  | cons x xs ih =>
    cases b with
    | nil => rfl
    | cons y ys =>
      simp only [idLt] at h1 ⊢
      split at h1
      · exact absurd h1 (by simp)
      · rename_i hxy
        split at h1
        · rename_i hxyeq
          subst hxyeq
          rw [if_neg (lt_irrefl x), if_pos rfl]
          exact ih ys h1 (fun hys => h2 (by rw [hys]))
        · rename_i hxyeq
          have hyx : y < x := by
            rcases lt_trichotomy x y with h | h | h
            · exact absurd h hxy
            · exact absurd h hxyeq
            · exact h
          rw [if_pos hyx]

theorem insertOption_sorted (os : Options) (k : OptionId) (v : Value)
    (hs : optionsSorted os = true) :
    optionsSorted (insertOption os k v) = true := by
  induction os with
  | nil => rfl
  | cons e rest ih =>
    obtain ⟨k0, w⟩ := e
    by_cases h1 : idLt k k0 = true
    · rw [show insertOption ((k0, w) :: rest) k v = (k, v) :: (k0, w) :: rest from by
        simp [insertOption, h1]]
      simp only [optionsSorted, Bool.and_eq_true]
      exact ⟨h1, hs⟩
    · by_cases h2 : k = k0
      · subst h2
        rw [show insertOption ((k, w) :: rest) k v = (k, v) :: rest from by
          simp [insertOption, h1]]
        cases rest with
        | nil => rfl
        | cons f fs =>
          simp only [optionsSorted, Bool.and_eq_true] at hs ⊢
          exact hs
      · rw [show insertOption ((k0, w) :: rest) k v =
            (k0, w) :: insertOption rest k v from by simp [insertOption, h1, h2]]
        have hrest := ih (optionsSorted_tail _ _ hs)
        have hk0k : idLt k0 k = true := idLt_total k k0 (by simpa using h1) h2
        cases rest with
        | nil =>
          rw [show insertOption ([] : Options) k v = [(k, v)] from rfl]
          simp [optionsSorted, hk0k]
        | cons f fs =>
          obtain ⟨k1, w1⟩ := f
          have hk0k1 : idLt k0 k1 = true := by
            simp only [optionsSorted, Bool.and_eq_true] at hs
            exact hs.1
          by_cases g1 : idLt k k1 = true
          · rw [show insertOption ((k1, w1) :: fs) k v = (k, v) :: (k1, w1) :: fs from by
                simp [insertOption, g1]] at hrest ⊢
            simp only [optionsSorted, Bool.and_eq_true] at hrest ⊢
            exact ⟨hk0k, hrest⟩
          · by_cases g2 : k = k1
            · subst g2
              rw [show insertOption ((k, w1) :: fs) k v = (k, v) :: fs from by
                  simp [insertOption, g1]] at hrest ⊢
              simp only [optionsSorted, Bool.and_eq_true] at hrest ⊢
              exact ⟨hk0k, hrest⟩
            · rw [show insertOption ((k1, w1) :: fs) k v =
                  (k1, w1) :: insertOption fs k v from by
                  simp [insertOption, g1, g2]] at hrest ⊢
              simp only [optionsSorted, Bool.and_eq_true] at hrest ⊢
              exact ⟨hk0k1, hrest⟩

theorem optionsSorted_keys_nodup (os : Options)
    (hs : optionsSorted os = true) : (listOptions os).Nodup := by
  induction os with
  | nil => exact List.nodup_nil
  | cons e rest ih =>
    obtain ⟨k0, w⟩ := e
    simp only [listOptions, List.map_cons, List.nodup_cons]
    constructor
    · intro hmem
      simp only [List.mem_map] at hmem
      obtain ⟨f, hf, hfk⟩ := hmem
      have hlt := optionsSorted_head_lt k0 w rest hs f hf
      rw [hfk] at hlt
      rw [idLt_irrefl] at hlt
      exact absurd hlt (by simp)
    · exact ih (optionsSorted_tail _ _ hs)

theorem lookupOption_of_mem_nodup (os : Options) (k : OptionId) (v : Value)
    (hmem : (k, v) ∈ os) (hnd : (listOptions os).Nodup) :
    lookupOption os k = some v := by
  induction os with
  | nil => cases hmem
  | cons e rest ih =>
    obtain ⟨k0, w⟩ := e
    simp only [listOptions, List.map_cons, List.nodup_cons] at hnd
    cases hmem with
    | head => simp [lookupOption]
    | tail _ hmem2 =>
      have hne : k ≠ k0 := by
        intro hkk
        subst hkk
        exact hnd.1 (by exact List.mem_map_of_mem Prod.fst hmem2)
      rw [lookupOption_cons_ne k0 w rest k hne]
      exact ih hmem2 (by
        have := hnd.2
        unfold listOptions
        exact this)

theorem setInsert_mem (xs : List Nat) (x y : Nat) :
    y ∈ setInsert xs x ↔ y ∈ xs ∨ y = x := by
  unfold setInsert
  split
  · rename_i hc
    have hx : x ∈ xs := by simpa using hc
    constructor
    · exact Or.inl
    · rintro (h | rfl)
      · exact h
      · exact hx
  · simp

theorem setUnion_mem (ys : List Nat) : ∀ (xs : List Nat) (y : Nat),
    y ∈ setUnion xs ys ↔ y ∈ xs ∨ y ∈ ys := by
  induction ys with
  | nil => intro xs y; simp [setUnion]
  | cons z zs ih =>
    intro xs y
    unfold setUnion at ih ⊢
    rw [List.foldl_cons, ih, setInsert_mem]
    simp only [List.mem_cons]
    tauto

theorem addImplStep_sorted (implOpts : Options) (e : OptionId × Value)
    (hs : optionsSorted implOpts = true) :
    optionsSorted (addImplStep implOpts e) = true := by
  unfold addImplStep
  split
  · split
    · exact insertOption_sorted _ _ _ hs
    · exact hs
  · exact insertOption_sorted _ _ _ hs

theorem addImplementationOptions_sorted (config : Options) :
    ∀ implOpts, optionsSorted implOpts = true →
    optionsSorted (addImplementationOptions implOpts config) = true := by
  induction config with
  | nil => intro implOpts hs; exact hs
  | cons e rest ih =>
    intro implOpts hs
    exact ih (addImplStep implOpts e) (addImplStep_sorted implOpts e hs)

theorem checkOptionsFold_fst_sorted (old : Options) (es : List (OptionId × Value)) :
    ∀ (as : Options) (v : Bool), optionsSorted as = true →
    optionsSorted ((es.foldl (checkOptionsStep old) (as, v)).1) = true := by
  induction es with
  | nil => intro as v hs; exact hs
  | cons e es ih =>
    intro as v hs
    rw [List.foldl_cons]
    unfold checkOptionsStep
    split
    · split
      · exact ih as v hs
      · exact ih as false hs
    · exact ih _ v (insertOption_sorted _ _ _ hs)

theorem checkOptionsFold_false (old : Options) (es : List (OptionId × Value)) :
    ∀ as : Options, (es.foldl (checkOptionsStep old) (as, false)).2 = false := by
  induction es with
  | nil => intro as; rfl
  | cons e es ih =>
    intro as
    rw [List.foldl_cons]
    unfold checkOptionsStep
    split
    · split
      · exact ih as
      · exact ih as
    · exact ih _

theorem checkOptionsFold_noConflict (old : Options) (es : List (OptionId × Value)) :
    ∀ (as : Options) (v : Bool),
    (es.foldl (checkOptionsStep old) (as, v)).2 = true →
    ∀ e ∈ es, e.2.isMulti = false → containsOption old e.1 = true →
      lookupOption old e.1 = some e.2 := by
  induction es with
  | nil => intro as v _ e he; cases he
  | cons e0 es ih =>
    intro as v h e he hsc hcont
    rw [List.foldl_cons] at h
    cases he with
    | head =>
      by_contra hneq
      rw [show checkOptionsStep old (as, v) e0 =
          (as, false) from by
        unfold checkOptionsStep
        rw [if_pos ⟨hsc, hcont⟩, if_neg hneq]] at h
      rw [checkOptionsFold_false] at h
      cases h
    | tail _ hmem =>
      have h2 : (es.foldl (checkOptionsStep old)
          ((checkOptionsStep old (as, v) e0).1,
            (checkOptionsStep old (as, v) e0).2)).2 = true := by
        simpa using h
      exact ih _ _ h2 e hmem hsc hcont

theorem checkOptionsFold_pos (old : Options) (es : List (OptionId × Value)) :
    ∀ (as : Options) (v : Bool),
    (∀ e ∈ es, e.2.isMulti = false → containsOption old e.1 = true →
      lookupOption old e.1 = some e.2) →
    (es.foldl (checkOptionsStep old) (as, v)).2 = v := by
  induction es with
  | nil => intro as v _; rfl
  | cons e es ih =>
    intro as v hno
    rw [List.foldl_cons]
    unfold checkOptionsStep
    split
    · rename_i hcond
      rw [if_pos (hno e (List.mem_cons_self e es) hcond.1 hcond.2)]
      exact ih as v (fun f hf => hno f (List.mem_cons_of_mem _ hf))
    · exact ih _ v (fun f hf => hno f (List.mem_cons_of_mem _ hf))

theorem checkOptionsFold_conflict (old : Options) (es : List (OptionId × Value))
    (e : OptionId × Value) (hmem : e ∈ es) (hsc : e.2.isMulti = false)
    (hcont : containsOption old e.1 = true)
    (hneq : lookupOption old e.1 ≠ some e.2) :
    ∀ (as : Options) (v : Bool),
    (es.foldl (checkOptionsStep old) (as, v)).2 = false := by
  induction es with
  | nil => cases hmem
  | cons e0 es ih =>
    intro as v
    rw [List.foldl_cons]
    cases hmem with
    | head =>
      rw [show checkOptionsStep old (as, v) e = (as, false) from by
        unfold checkOptionsStep
        rw [if_pos ⟨hsc, hcont⟩, if_neg hneq]]
      exact checkOptionsFold_false old es as
    | tail _ hmem2 =>
      have := ih hmem2 (checkOptionsStep old (as, v) e0).1
        (checkOptionsStep old (as, v) e0).2
      simpa using this

theorem checkOptionsFold_fst_lookup (old : Options) (es : List (OptionId × Value)) :
    ∀ (as : Options) (v : Bool) (k : OptionId), (listOptions es).Nodup →
    lookupOption ((es.foldl (checkOptionsStep old) (as, v)).1) k =
      (match lookupOption es k with
       | some w =>
         if w.isMulti = true ∨ containsOption old k = false then some w
         else lookupOption as k
       | none => lookupOption as k) := by
  induction es with
  | nil => intro as v k _; rfl
  | cons e es ih =>
    intro as v k hnd
    obtain ⟨k0, w0⟩ := e
    have hnd2 : (listOptions es).Nodup := by
      simp only [listOptions, List.map_cons, List.nodup_cons] at hnd
      unfold listOptions
      exact hnd.2
    have hk0es : lookupOption es k0 = none := by
      apply lookupOption_eq_none_of_not_mem
      simp only [listOptions, List.map_cons, List.nodup_cons] at hnd
      unfold listOptions
      exact hnd.1
    rw [List.foldl_cons]
    by_cases hcond : (w0.isMulti = false ∧ containsOption old k0 = true)
    · have hnotor : ¬ (w0.isMulti = true ∨ containsOption old k0 = false) := by
        simp [hcond.1, hcond.2]
      by_cases heq : lookupOption old k0 = some w0
      · rw [show checkOptionsStep old (as, v) (k0, w0) = (as, v) from by
          unfold checkOptionsStep
          rw [if_pos hcond, if_pos heq]]
        rw [ih as v k hnd2]
        by_cases hk : k = k0
        · subst hk
          rw [hk0es, show lookupOption ((k, w0) :: es) k = some w0 from by
            simp [lookupOption]]
          simp only []
          rw [if_neg hnotor]
        · rw [lookupOption_cons_ne k0 w0 es k hk]
      · rw [show checkOptionsStep old (as, v) (k0, w0) = (as, false) from by
          unfold checkOptionsStep
          rw [if_pos hcond, if_neg heq]]
        rw [ih as false k hnd2]
        by_cases hk : k = k0
        · subst hk
          rw [hk0es, show lookupOption ((k, w0) :: es) k = some w0 from by
            simp [lookupOption]]
          simp only []
          rw [if_neg hnotor]
        · rw [lookupOption_cons_ne k0 w0 es k hk]
    · have hor : w0.isMulti = true ∨ containsOption old k0 = false := by
        rcases Decidable.not_and_iff_or_not.1 hcond with h | h
        · exact Or.inl (by simpa using h)
        · exact Or.inr (by simpa using h)
      rw [show checkOptionsStep old (as, v) (k0, w0) = (insertOption as k0 w0, v) from by
        unfold checkOptionsStep
        rw [if_neg hcond]]
      rw [ih _ v k hnd2]
      by_cases hk : k = k0
      · subst hk
        rw [hk0es, show lookupOption ((k, w0) :: es) k = some w0 from by
          simp [lookupOption]]
        simp only []
        rw [if_pos hor]
        exact lookupOption_insert_self as k w0
      · rw [lookupOption_cons_ne k0 w0 es k hk]
        have hins : lookupOption (insertOption as k0 w0) k = lookupOption as k :=
          lookupOption_insert_ne as k0 k w0 hk
        cases hles : lookupOption es k with
        | none => simpa using hins
        | some w =>
          simp only []
          split
          · rfl
          · simpa using hins

theorem checkTemplate_fields (b : ValidatingBuilder) (τ : Int) :
    (b.checkTemplate τ).surfaces = b.surfaces ∧
    (b.checkTemplate τ).captureConfigBuilder.surfaces =
      b.captureConfigBuilder.surfaces ∧
    (b.checkTemplate τ).captureConfigBuilder.cameraCaptureCallbacks =
      b.captureConfigBuilder.cameraCaptureCallbacks ∧
    (b.checkTemplate τ).captureConfigBuilder.implementationOptions =
      b.captureConfigBuilder.implementationOptions ∧
    (b.checkTemplate τ).captureConfigBuilder.tag = b.captureConfigBuilder.tag := by
  unfold ValidatingBuilder.checkTemplate
  split
  · exact ⟨rfl, rfl, rfl, rfl, rfl⟩
  · split
    · exact ⟨rfl, rfl, rfl, rfl, rfl⟩
    · exact ⟨rfl, rfl, rfl, rfl, rfl⟩

theorem checkTemplate_valid_eq (b : ValidatingBuilder) (τ : Int)
    (h : b.templateSet = false ∨ b.captureConfigBuilder.templateType = τ) :
    (b.checkTemplate τ).valid = b.valid := by
  unfold ValidatingBuilder.checkTemplate
  by_cases hts : b.templateSet = false
  · rw [if_pos hts]
  · rcases h with h | h
    · exact absurd h hts
    · rw [if_neg hts, if_pos h]

theorem checkTemplate_type_eq (b : ValidatingBuilder) (τ : Int)
    (h : b.templateSet = false ∨ b.captureConfigBuilder.templateType = τ) :
    (b.checkTemplate τ).captureConfigBuilder.templateType = τ := by
  unfold ValidatingBuilder.checkTemplate
  by_cases hts : b.templateSet = false
  · rw [if_pos hts]
  · rcases h with h | h
    · exact absurd h hts
    · rw [if_neg hts, if_pos h]
      exact h

theorem addSurfacesOf_surfaces (b : ValidatingBuilder) (sc : SessionConfig) :
    (b.addSurfacesOf sc).surfaces = setUnion b.surfaces sc.surfaces := by
  simp only [ValidatingBuilder.addSurfacesOf]
  split <;> rfl

theorem addSurfacesOf_ccb_surfaces (b : ValidatingBuilder) (sc : SessionConfig) :
    (b.addSurfacesOf sc).captureConfigBuilder.surfaces =
      setUnion b.captureConfigBuilder.surfaces
        sc.repeatingCaptureConfig.surfaces := by
  simp only [ValidatingBuilder.addSurfacesOf]
  split <;> rfl

theorem addSurfacesOf_ccb_cccs (b : ValidatingBuilder) (sc : SessionConfig) :
    (b.addSurfacesOf sc).captureConfigBuilder.cameraCaptureCallbacks =
      b.captureConfigBuilder.cameraCaptureCallbacks := by
  simp only [ValidatingBuilder.addSurfacesOf]
  split <;> rfl

theorem addSurfacesOf_ccb_implOpts (b : ValidatingBuilder) (sc : SessionConfig) :
    (b.addSurfacesOf sc).captureConfigBuilder.implementationOptions =
      b.captureConfigBuilder.implementationOptions := by
  simp only [ValidatingBuilder.addSurfacesOf]
  split <;> rfl

theorem addSurfacesOf_ccb_type (b : ValidatingBuilder) (sc : SessionConfig) :
    (b.addSurfacesOf sc).captureConfigBuilder.templateType =
      b.captureConfigBuilder.templateType := by
  simp only [ValidatingBuilder.addSurfacesOf]
  split <;> rfl

theorem addSurfacesOf_valid_of_subset (b : ValidatingBuilder) (sc : SessionConfig)
    (h : ∀ s ∈ setUnion b.captureConfigBuilder.surfaces
        sc.repeatingCaptureConfig.surfaces,
      s ∈ setUnion b.surfaces sc.surfaces) :
    (b.addSurfacesOf sc).valid = b.valid := by
  simp only [ValidatingBuilder.addSurfacesOf]
  rw [if_pos]
  simp only [List.all_eq_true]
  intro s hs
  simpa using h s hs

theorem checkTemplate_unified (b : ValidatingBuilder) (τ : Int)
    (h : b.templateSet = false ∨
      (b.templateSet = true ∧ b.captureConfigBuilder.templateType = τ)) :
    b.checkTemplate τ = { b with
      templateSet := true
      captureConfigBuilder :=
        { b.captureConfigBuilder with templateType := τ } } := by
  obtain ⟨s, ccb, dc, sc2, sgl, v, ts⟩ := b
  obtain ⟨ss, tt, iu, cbs, tg, io⟩ := ccb
  rcases h with h | ⟨h1, h2⟩
  · simp only at h
    subst h
    unfold ValidatingBuilder.checkTemplate
    rw [if_pos rfl]
  · simp only at h1 h2
    subst h1
    subst h2
    unfold ValidatingBuilder.checkTemplate
    rw [if_neg (by simp), if_pos rfl]

theorem addSurfacesOf_eq_of_subset (b : ValidatingBuilder) (sc : SessionConfig)
    (h : ∀ s ∈ setUnion b.captureConfigBuilder.surfaces
        sc.repeatingCaptureConfig.surfaces,
      s ∈ setUnion b.surfaces sc.surfaces) :
    b.addSurfacesOf sc = { b with
      surfaces := setUnion b.surfaces sc.surfaces
      captureConfigBuilder := { b.captureConfigBuilder with
        surfaces := (setUnion b.captureConfigBuilder.surfaces
          sc.repeatingCaptureConfig.surfaces) } } := by
  simp only [ValidatingBuilder.addSurfacesOf]
  rw [if_pos]
  simp only [List.all_eq_true]
  intro s hs
  simpa using h s hs

theorem checkOptions_eq (b : ValidatingBuilder) (es : Options) :
    b.checkOptions es = { b with
      valid := (es.foldl
        (checkOptionsStep b.captureConfigBuilder.implementationOptions)
        ([], b.valid)).2
      captureConfigBuilder := { b.captureConfigBuilder with
        implementationOptions :=
          addImplementationOptions b.captureConfigBuilder.implementationOptions
            ((es.foldl
              (checkOptionsStep b.captureConfigBuilder.implementationOptions)
              ([], b.valid)).1) } } := rfl

theorem clean_options_valid (cs : List SessionConfig) (d : SessionConfig)
    (old : Options)
    (hoinvOld : ∀ k u, lookupOption old k = some u →
      ∃ c ∈ cs, ∃ w,
        lookupOption c.repeatingCaptureConfig.implementationOptions k = some w ∧
        u.isMulti = w.isMulti ∧ (u.isMulti = false → u = w))
    (hopts : ∀ c ∈ cs, ∀ k v w,
      lookupOption d.repeatingCaptureConfig.implementationOptions k = some v →
      lookupOption c.repeatingCaptureConfig.implementationOptions k = some w →
      (v.isMulti = true ∧ w.isMulti = true) ∨ v = w)
    (hsorted : optionsSorted d.repeatingCaptureConfig.implementationOptions = true)
    (v0 : Bool) :
    (d.repeatingCaptureConfig.implementationOptions.foldl
      (checkOptionsStep old) ([], v0)).2 = v0 := by
  apply checkOptionsFold_pos
  intro e he hsc hcont
  have hndEs := optionsSorted_keys_nodup _ hsorted
  have hes : lookupOption d.repeatingCaptureConfig.implementationOptions e.1 =
      some e.2 := by
    obtain ⟨k, w⟩ := e
    exact lookupOption_of_mem_nodup _ _ _ he hndEs
  obtain ⟨u, hu⟩ : ∃ u, lookupOption old e.1 = some u := by
    unfold containsOption at hcont
    cases hl : lookupOption old e.1 with
    | none => rw [hl] at hcont; cases hcont
    | some u => exact ⟨u, rfl⟩
  obtain ⟨c, hc, w, hw, hkind, hscal⟩ := hoinvOld e.1 u hu
  rcases hopts c hc e.1 e.2 w hes hw with ⟨hm, _⟩ | heqw
  · rw [hsc] at hm; cases hm
  · have huw : u = w := hscal (by rw [hkind, ← heqw, hsc])
    rw [hu, huw, heqw]

theorem clean_options_inv_step (cs : List SessionConfig) (d : SessionConfig)
    (old : Options) (hsortOld : optionsSorted old = true)
    (hsorted : optionsSorted d.repeatingCaptureConfig.implementationOptions = true)
    (hoinvOld : ∀ k u, lookupOption old k = some u →
      ∃ c ∈ cs, ∃ w,
        lookupOption c.repeatingCaptureConfig.implementationOptions k = some w ∧
        u.isMulti = w.isMulti ∧ (u.isMulti = false → u = w))
    (v0 : Bool) :
    ∀ k u, lookupOption (addImplementationOptions old
      ((d.repeatingCaptureConfig.implementationOptions.foldl
        (checkOptionsStep old) ([], v0)).1)) k = some u →
    ∃ c ∈ cs ++ [d], ∃ w,
      lookupOption c.repeatingCaptureConfig.implementationOptions k = some w ∧
      u.isMulti = w.isMulti ∧ (u.isMulti = false → u = w) := by
  intro k u hu
  have hndEs := optionsSorted_keys_nodup _ hsorted
  have haddedSorted : optionsSorted
      ((d.repeatingCaptureConfig.implementationOptions.foldl
        (checkOptionsStep old) ([], v0)).1) = true :=
    checkOptionsFold_fst_sorted old _ [] v0 rfl
  have hndAdded := optionsSorted_keys_nodup _ haddedSorted
  have hkind : ∀ k2 ex v2,
      lookupOption old k2 = some (Value.multi ex) →
      lookupOption ((d.repeatingCaptureConfig.implementationOptions.foldl
        (checkOptionsStep old) ([], v0)).1) k2 = some v2 →
      v2.isMulti = true := by
    intro k2 ex v2 h1 h2
    rw [checkOptionsFold_fst_lookup old _ [] v0 k2 hndEs] at h2
    cases hles : lookupOption d.repeatingCaptureConfig.implementationOptions k2 with
    | none => rw [hles] at h2; cases h2
    | some w =>
      rw [hles] at h2
      simp only [] at h2
      split at h2
      · rename_i hor
        cases h2
        rcases hor with hm | hcont
        · exact hm
        · unfold containsOption at hcont
          rw [h1] at hcont
          cases hcont
      · cases h2
  rw [addImplementationOptions_lookup _ old hndAdded hkind k] at hu
  unfold mergeSpecAt at hu
  cases hadded : lookupOption ((d.repeatingCaptureConfig.implementationOptions.foldl
      (checkOptionsStep old) ([], v0)).1) k with
  | none =>
    rw [hadded] at hu
    obtain ⟨c, hc, w, hw, h1, h2⟩ := hoinvOld k u hu
    exact ⟨c, List.mem_append_left _ hc, w, hw, h1, h2⟩
  | some v1 =>
    rw [hadded] at hu
    replace hu : some (mergeSpec (lookupOption old k) v1) = some u := hu
    have hd1 : lookupOption d.repeatingCaptureConfig.implementationOptions k =
        some v1 := by
      rw [checkOptionsFold_fst_lookup old _ [] v0 k hndEs] at hadded
      cases hles : lookupOption d.repeatingCaptureConfig.implementationOptions k with
      | none => rw [hles] at hadded; cases hadded
      | some w =>
        rw [hles] at hadded
        simp only [] at hadded
        split at hadded
        · cases hadded; rfl
        · cases hadded
    have hdmem : d ∈ cs ++ [d] := List.mem_append_right _ (List.mem_singleton.2 rfl)
    cases hold : lookupOption old k with
    | none =>
      rw [hold] at hu
      rw [mergeSpec_none] at hu
      cases hu
      exact ⟨d, hdmem, u, hd1, rfl, fun _ => rfl⟩
    | some oldv =>
      rw [hold] at hu
      cases oldv with
      | scalar s =>
        rw [mergeSpec_scalar] at hu
        cases hu
        exact ⟨d, hdmem, u, hd1, rfl, fun _ => rfl⟩
      | multi ex =>
        cases v1 with
        | scalar s1 =>
          rw [show mergeSpec (some (Value.multi ex)) (Value.scalar s1) =
            Value.scalar s1 from rfl] at hu
          cases hu
          exact ⟨d, hdmem, Value.scalar s1, hd1, rfl, fun _ => rfl⟩
        | multi ns =>
          rw [show mergeSpec (some (Value.multi ex)) (Value.multi ns) =
            Value.multi (multiUnion ex ns) from rfl] at hu
          cases hu
          exact ⟨d, hdmem, Value.multi ns, hd1, rfl, by intro hh; cases hh⟩

theorem clean_add (cs : List SessionConfig) (t : Int) (b : ValidatingBuilder)
    (d : SessionConfig)
    (hInv : CleanInv cs t b)
    (hT : d.repeatingCaptureConfig.templateType = t)
    (hwfAll : ∀ c ∈ cs ++ [d], ∀ s ∈ c.repeatingCaptureConfig.surfaces,
      s ∈ c.surfaces)
    (hsorted : optionsSorted d.repeatingCaptureConfig.implementationOptions = true)
    (hopts : ∀ c ∈ cs, ∀ k v w,
      lookupOption d.repeatingCaptureConfig.implementationOptions k = some v →
      lookupOption c.repeatingCaptureConfig.implementationOptions k = some w →
      (v.isMulti = true ∧ w.isMulti = true) ∨ v = w)
    (hcbnd : d.repeatingCaptureConfig.cameraCaptureCallbacks.Nodup)
    (hcbdisj : ∀ x ∈ d.repeatingCaptureConfig.cameraCaptureCallbacks,
      x ∉ (cs.map fun c => c.repeatingCaptureConfig.cameraCaptureCallbacks).flatten) :
    ∃ b', b.add d = .ok b' ∧ CleanInv (cs ++ [d]) t b' := by
  obtain ⟨hv, hts, htt, hsurf, hcsurf, hccb, hsort, hoinv, htag⟩ := hInv
  have hctHyp : b.templateSet = false ∨
      (b.templateSet = true ∧ b.captureConfigBuilder.templateType =
        d.repeatingCaptureConfig.templateType) := by
    cases cs with
    | nil => left; simpa using hts
    | cons c0 cs0 =>
      right
      refine ⟨by simpa using hts, ?_⟩
      rw [htt (by simp), hT]
  have hct := checkTemplate_unified b d.repeatingCaptureConfig.templateType hctHyp
  have hb2ccb : (((b.checkTemplate
      d.repeatingCaptureConfig.templateType).setTag
        d.repeatingCaptureConfig.tag).appendSessionCallbacks
          d).captureConfigBuilder =
      { b.captureConfigBuilder with
        templateType := d.repeatingCaptureConfig.templateType
        tag := some d.repeatingCaptureConfig.tag } := by
    rw [hct]
    rfl
  have hccbAll : (((b.checkTemplate
      d.repeatingCaptureConfig.templateType).setTag
        d.repeatingCaptureConfig.tag).appendSessionCallbacks
          d).captureConfigBuilder.addAllCameraCaptureCallbacks
            d.repeatingCaptureConfig.cameraCaptureCallbacks =
      .ok { b.captureConfigBuilder with
        templateType := d.repeatingCaptureConfig.templateType
        tag := some d.repeatingCaptureConfig.tag
        cameraCaptureCallbacks := b.captureConfigBuilder.cameraCaptureCallbacks ++
          d.repeatingCaptureConfig.cameraCaptureCallbacks } := by
    rw [hb2ccb]
    have hdj : ∀ c ∈ d.repeatingCaptureConfig.cameraCaptureCallbacks,
        c ∉ ({ b.captureConfigBuilder with
          templateType := d.repeatingCaptureConfig.templateType
          tag := some d.repeatingCaptureConfig.tag } :
            CaptureConfigBuilder).cameraCaptureCallbacks := by
      intro c hc
      rw [show ({ b.captureConfigBuilder with
          templateType := d.repeatingCaptureConfig.templateType
          tag := some d.repeatingCaptureConfig.tag } :
            CaptureConfigBuilder).cameraCaptureCallbacks =
        b.captureConfigBuilder.cameraCaptureCallbacks from rfl, hccb]
      exact hcbdisj c hc
    exact addAllCCC_ok_of d.repeatingCaptureConfig.cameraCaptureCallbacks _ hdj hcbnd
  have hE0 : ((((b.checkTemplate
      d.repeatingCaptureConfig.templateType).setTag
        d.repeatingCaptureConfig.tag).appendSessionCallbacks d).setCCB
          { b.captureConfigBuilder with
            templateType := d.repeatingCaptureConfig.templateType
            tag := some d.repeatingCaptureConfig.tag
            cameraCaptureCallbacks :=
              b.captureConfigBuilder.cameraCaptureCallbacks ++
                d.repeatingCaptureConfig.cameraCaptureCallbacks
            }).appendSingleCallbacks d =
      { surfaces := b.surfaces
        captureConfigBuilder :=
          { b.captureConfigBuilder with
            templateType := d.repeatingCaptureConfig.templateType
            tag := some d.repeatingCaptureConfig.tag
            cameraCaptureCallbacks :=
              b.captureConfigBuilder.cameraCaptureCallbacks ++
                d.repeatingCaptureConfig.cameraCaptureCallbacks }
        deviceStateCallbacks := b.deviceStateCallbacks ++ d.deviceStateCallbacks
        sessionStateCallbacks := b.sessionStateCallbacks ++ d.sessionStateCallbacks
        singleCameraCaptureCallbacks :=
          b.singleCameraCaptureCallbacks ++ d.singleCameraCaptureCallbacks
        valid := b.valid
        templateSet := true } := by
    rw [hct]
    rfl
  have hsub : ∀ s ∈ setUnion b.captureConfigBuilder.surfaces
      d.repeatingCaptureConfig.surfaces, s ∈ setUnion b.surfaces d.surfaces := by
    intro s hs
    rw [setUnion_mem] at hs
    rw [setUnion_mem]
    rcases hs with hs | hs
    · obtain ⟨c, hc, hcs⟩ := (hcsurf s).1 hs
      exact Or.inl ((hsurf s).2 ⟨c, hc, hwfAll c (List.mem_append_left _ hc) s hcs⟩)
    · exact Or.inr (hwfAll d (List.mem_append_right _ (by simp)) s hs)
  refine ⟨{ surfaces := setUnion b.surfaces d.surfaces
            captureConfigBuilder :=
              { surfaces := (setUnion b.captureConfigBuilder.surfaces
                  d.repeatingCaptureConfig.surfaces)
                templateType := d.repeatingCaptureConfig.templateType
                isUseRepeatingSurface :=
                  b.captureConfigBuilder.isUseRepeatingSurface
                cameraCaptureCallbacks :=
                  (b.captureConfigBuilder.cameraCaptureCallbacks ++
                    d.repeatingCaptureConfig.cameraCaptureCallbacks)
                tag := some d.repeatingCaptureConfig.tag
                implementationOptions :=
                  (addImplementationOptions
                    b.captureConfigBuilder.implementationOptions
                    ((d.repeatingCaptureConfig.implementationOptions.foldl
                      (checkOptionsStep
                        b.captureConfigBuilder.implementationOptions)
                      ([], b.valid)).1)) }
            deviceStateCallbacks := (b.deviceStateCallbacks ++ d.deviceStateCallbacks)
            sessionStateCallbacks := (b.sessionStateCallbacks ++ d.sessionStateCallbacks)
            singleCameraCaptureCallbacks :=
              (b.singleCameraCaptureCallbacks ++ d.singleCameraCaptureCallbacks)
            valid := (d.repeatingCaptureConfig.implementationOptions.foldl
              (checkOptionsStep b.captureConfigBuilder.implementationOptions)
              ([], b.valid)).2
            templateSet := true }, ?_, ?_⟩
  · simp only [ValidatingBuilder.add]
    rw [hccbAll]
    show Except.ok (((((((b.checkTemplate
        d.repeatingCaptureConfig.templateType).setTag
          d.repeatingCaptureConfig.tag).appendSessionCallbacks d).setCCB
            { b.captureConfigBuilder with
              templateType := d.repeatingCaptureConfig.templateType
              tag := some d.repeatingCaptureConfig.tag
              cameraCaptureCallbacks :=
                b.captureConfigBuilder.cameraCaptureCallbacks ++
                  d.repeatingCaptureConfig.cameraCaptureCallbacks
              }).appendSingleCallbacks d).addSurfacesOf d).checkOptions
                d.repeatingCaptureConfig.implementationOptions) = _
    rw [hE0]
    rw [addSurfacesOf_eq_of_subset
      { surfaces := b.surfaces
        captureConfigBuilder :=
          { b.captureConfigBuilder with
            templateType := d.repeatingCaptureConfig.templateType
            tag := some d.repeatingCaptureConfig.tag
            cameraCaptureCallbacks :=
              b.captureConfigBuilder.cameraCaptureCallbacks ++
                d.repeatingCaptureConfig.cameraCaptureCallbacks }
        deviceStateCallbacks := b.deviceStateCallbacks ++ d.deviceStateCallbacks
        sessionStateCallbacks := b.sessionStateCallbacks ++ d.sessionStateCallbacks
        singleCameraCaptureCallbacks :=
          b.singleCameraCaptureCallbacks ++ d.singleCameraCaptureCallbacks
        valid := b.valid
        templateSet := true } d hsub]
    rfl
  · constructor
    · -- valid
      show (d.repeatingCaptureConfig.implementationOptions.foldl
        (checkOptionsStep b.captureConfigBuilder.implementationOptions)
        ([], b.valid)).2 = true
      rw [clean_options_valid cs d _ hoinv hopts hsorted b.valid]
      exact hv
    constructor
    · simp
    constructor
    · intro _
      exact hT
    constructor
    · intro x
      show x ∈ setUnion b.surfaces d.surfaces ↔ _
      rw [setUnion_mem, hsurf x]
      constructor
      · rintro (⟨c, hc, hx⟩ | hx)
        · exact ⟨c, List.mem_append_left _ hc, hx⟩
        · exact ⟨d, List.mem_append_right _ (by simp), hx⟩
      · rintro ⟨c, hc, hx⟩
        rcases List.mem_append.1 hc with hc | hc
        · exact Or.inl ⟨c, hc, hx⟩
        · rw [List.mem_singleton.1 hc] at hx
          exact Or.inr hx
    constructor
    · intro x
      show x ∈ setUnion b.captureConfigBuilder.surfaces
        d.repeatingCaptureConfig.surfaces ↔ _
      rw [setUnion_mem, hcsurf x]
      constructor
      · rintro (⟨c, hc, hx⟩ | hx)
        · exact ⟨c, List.mem_append_left _ hc, hx⟩
        · exact ⟨d, List.mem_append_right _ (by simp), hx⟩
      · rintro ⟨c, hc, hx⟩
        rcases List.mem_append.1 hc with hc | hc
        · exact Or.inl ⟨c, hc, hx⟩
        · rw [List.mem_singleton.1 hc] at hx
          exact Or.inr hx
    constructor
    · show b.captureConfigBuilder.cameraCaptureCallbacks ++
        d.repeatingCaptureConfig.cameraCaptureCallbacks = _
      rw [hccb]
      simp
    constructor
    · show optionsSorted (addImplementationOptions
        b.captureConfigBuilder.implementationOptions _) = true
      exact addImplementationOptions_sorted _ _ hsort
    constructor
    · intro k u hu
      exact clean_options_inv_step cs d
        b.captureConfigBuilder.implementationOptions hsort hsorted hoinv
        b.valid k u hu
    · intro _
      rfl

theorem lookupOption_mem (os : Options) (k : OptionId) (w : Value)
    (h : lookupOption os k = some w) : (k, w) ∈ os := by
  induction os with
  | nil => cases h
  | cons e rest ih =>
    obtain ⟨k0, v0⟩ := e
    by_cases hk : k = k0
    · subst hk
      rw [show lookupOption ((k, v0) :: rest) k = some v0 from by
        simp [lookupOption]] at h
      cases h
      exact List.mem_cons_self _ _
    · rw [show lookupOption ((k0, v0) :: rest) k = lookupOption rest k from by
        simp [lookupOption, hk]] at h
      exact List.mem_cons_of_mem _ (ih h)

theorem lookupOption_insert_elim (as : Options) (k0 : OptionId) (v0 : Value)
    (k : OptionId) (w : Value)
    (h : lookupOption (insertOption as k0 v0) k = some w) :
    (k = k0 ∧ w = v0) ∨ lookupOption as k = some w := by
  by_cases hk : k = k0
  · subst hk
    rw [lookupOption_insert_self] at h
    cases h
    exact Or.inl ⟨rfl, rfl⟩
  · rw [lookupOption_insert_ne as k0 k v0 hk] at h
    exact Or.inr h

theorem checkOptionsFold_fresh (old : Options) (es : List (OptionId × Value)) :
    ∀ (as : Options) (v : Bool),
    (∀ k w, lookupOption as k = some w → w.isMulti = false →
      containsOption old k = false) →
    ∀ k w, lookupOption ((es.foldl (checkOptionsStep old) (as, v)).1) k = some w →
      w.isMulti = false → containsOption old k = false := by
  induction es with
  | nil => intro as v hbase; exact hbase
  | cons e es ih =>
    intro as v hbase k w
    rw [List.foldl_cons]
    unfold checkOptionsStep
    split
    · split
      · exact ih as v hbase k w
      · exact ih as false hbase k w
    · rename_i hcond
      refine ih _ v ?_ k w
      intro k2 w2 h2 hsc2
      rcases lookupOption_insert_elim as e.1 e.2 k2 w2 h2 with ⟨hkk, hww⟩ | h3
      · subst hkk
        subst hww
        cases hc : containsOption old e.1 with
        | false => rfl
        | true => exact absurd ⟨hsc2, hc⟩ hcond
      · exact hbase k2 w2 h3 hsc2

theorem checkOptionsFold_kind (old : Options) (es : List (OptionId × Value))
    (v1 : Bool) :
    ∀ k ex w, lookupOption old k = some (Value.multi ex) →
    lookupOption ((es.foldl (checkOptionsStep old) ([], v1)).1) k = some w →
    w.isMulti = true := by
  intro k ex w h1 h2
  cases hwm : w.isMulti with
  | true => rfl
  | false =>
    have hfr := checkOptionsFold_fresh old es [] v1
      (fun k2 w2 h2' _ => Option.noConfusion h2') k w h2 hwm
    have hct : containsOption old k = true := by
      unfold containsOption
      rw [h1]
      rfl
    rw [hct] at hfr
    exact Bool.noConfusion hfr

theorem addImplOpts_fold_lookup (old : Options) (es : List (OptionId × Value))
    (v1 : Bool) (k : OptionId) :
    lookupOption (addImplementationOptions old
      ((es.foldl (checkOptionsStep old) ([], v1)).1)) k =
    mergeSpecAt old ((es.foldl (checkOptionsStep old) ([], v1)).1) k := by
  apply addImplementationOptions_lookup
  · exact optionsSorted_keys_nodup _ (checkOptionsFold_fst_sorted old es [] v1 rfl)
  · intro k2 ex w h1 h2
    exact checkOptionsFold_kind old es v1 k2 ex w h1 h2

theorem add_ok_chars (b : ValidatingBuilder) (sc : SessionConfig)
    (b' : ValidatingBuilder) (h : b.add sc = .ok b') :
    ∃ v1 : Bool,
      b'.valid = ((sc.repeatingCaptureConfig.implementationOptions).foldl
        (checkOptionsStep b.captureConfigBuilder.implementationOptions)
        ([], v1)).2 ∧
      b'.captureConfigBuilder.implementationOptions =
        addImplementationOptions b.captureConfigBuilder.implementationOptions
          ((sc.repeatingCaptureConfig.implementationOptions).foldl
            (checkOptionsStep b.captureConfigBuilder.implementationOptions)
            ([], v1)).1 := by
  simp only [ValidatingBuilder.add] at h
  cases hres : (((b.checkTemplate
      sc.repeatingCaptureConfig.templateType).setTag
        sc.repeatingCaptureConfig.tag).appendSessionCallbacks
          sc).captureConfigBuilder.addAllCameraCaptureCallbacks
            sc.repeatingCaptureConfig.cameraCaptureCallbacks with
  | error e => rw [hres] at h; cases h
  | ok ccb =>
    rw [hres] at h
    cases h
    have hshape := addAllCCC_shape _ _ _ hres
    set X := (((((b.checkTemplate
        sc.repeatingCaptureConfig.templateType).setTag
          sc.repeatingCaptureConfig.tag).appendSessionCallbacks sc).setCCB
            ccb).appendSingleCallbacks sc).addSurfacesOf sc with hX
    have hio : X.captureConfigBuilder.implementationOptions =
        b.captureConfigBuilder.implementationOptions := by
      rw [hX]
      rw [addSurfacesOf_ccb_implOpts]
      show ccb.implementationOptions = _
      rw [hshape]
      exact (checkTemplate_fields b _).2.2.2.1
    refine ⟨X.valid, ?_, ?_⟩
    · show ((sc.repeatingCaptureConfig.implementationOptions).foldl
        (checkOptionsStep X.captureConfigBuilder.implementationOptions)
        ([], X.valid)).2 = _
      rw [hio]
    · show addImplementationOptions
        X.captureConfigBuilder.implementationOptions
        ((sc.repeatingCaptureConfig.implementationOptions).foldl
          (checkOptionsStep X.captureConfigBuilder.implementationOptions)
          ([], X.valid)).1 = _
      rw [hio]

theorem add_valid_false (b : ValidatingBuilder) (sc : SessionConfig)
    (b' : ValidatingBuilder) (h : b.add sc = .ok b') (hv : b.valid = false) :
    b'.valid = false := by
  cases hv' : b'.valid with
  | false => rfl
  | true =>
    rw [add_valid_mono b sc b' h hv'] at hv
    exact Bool.noConfusion hv

theorem conflict_step (k : OptionId) (v : Value) (b : ValidatingBuilder)
    (sc : SessionConfig) (b' : ValidatingBuilder)
    (h : b.add sc = .ok b') (hR : ConflictR k v b) : ConflictR k v b' := by
  unfold ConflictR at hR ⊢
  rcases hR with hval | ⟨u, hu, hcase⟩
  · exact Or.inl (add_valid_false b sc b' h hval)
  · obtain ⟨v1, hval1, hopts1⟩ := add_ok_chars b sc b' h
    right
    have hlu : lookupOption b'.captureConfigBuilder.implementationOptions k =
        mergeSpecAt b.captureConfigBuilder.implementationOptions
          ((sc.repeatingCaptureConfig.implementationOptions).foldl
            (checkOptionsStep b.captureConfigBuilder.implementationOptions)
            ([], v1)).1 k := by
      rw [hopts1]
      exact addImplOpts_fold_lookup _ _ _ k
    unfold mergeSpecAt at hlu
    cases hladds : lookupOption
        ((sc.repeatingCaptureConfig.implementationOptions).foldl
          (checkOptionsStep b.captureConfigBuilder.implementationOptions)
          ([], v1)).1 k with
    | none =>
      rw [hladds] at hlu
      replace hlu : lookupOption b'.captureConfigBuilder.implementationOptions k =
        lookupOption b.captureConfigBuilder.implementationOptions k := hlu
      rw [hu] at hlu
      exact ⟨u, hlu, hcase⟩
    | some z =>
      rw [hladds] at hlu
      replace hlu : lookupOption b'.captureConfigBuilder.implementationOptions k =
        some (mergeSpec
          (lookupOption b.captureConfigBuilder.implementationOptions k) z) := hlu
      rw [hu] at hlu
      cases hzm : z.isMulti with
      | false =>
        have hfr := checkOptionsFold_fresh
          b.captureConfigBuilder.implementationOptions
          sc.repeatingCaptureConfig.implementationOptions [] v1
          (fun k2 w2 h2 _ => Option.noConfusion h2) k z hladds hzm
        have hct : containsOption
            b.captureConfigBuilder.implementationOptions k = true := by
          unfold containsOption
          rw [hu]
          rfl
        rw [hct] at hfr
        exact Bool.noConfusion hfr
      | true =>
        cases z with
        | scalar s => exact Bool.noConfusion hzm
        | multi zs =>
          cases u with
          | scalar s =>
            refine ⟨Value.multi zs, ?_, Or.inr rfl⟩
            rw [hlu]
            rfl
          | multi ex =>
            refine ⟨Value.multi (multiUnion ex zs), ?_, Or.inr rfl⟩
            rw [hlu]
            rfl

theorem conflict_init (k : OptionId) (v : Value) (b : ValidatingBuilder)
    (sc : SessionConfig) (b' : ValidatingBuilder)
    (h : b.add sc = .ok b')
    (hv : lookupOption sc.repeatingCaptureConfig.implementationOptions k = some v)
    (hvs : v.isMulti = false)
    (hsorted : optionsSorted sc.repeatingCaptureConfig.implementationOptions = true) :
    ConflictR k v b' := by
  unfold ConflictR
  obtain ⟨v1, hval1, hopts1⟩ := add_ok_chars b sc b' h
  have hnd := optionsSorted_keys_nodup _ hsorted
  have hladds := checkOptionsFold_fst_lookup
    b.captureConfigBuilder.implementationOptions
    sc.repeatingCaptureConfig.implementationOptions [] v1 k hnd
  rw [hv] at hladds
  replace hladds : lookupOption
      ((sc.repeatingCaptureConfig.implementationOptions).foldl
        (checkOptionsStep b.captureConfigBuilder.implementationOptions)
        ([], v1)).1 k =
      (if v.isMulti = true ∨
          containsOption b.captureConfigBuilder.implementationOptions k = false
        then some v else none) := hladds
  have hlu : lookupOption b'.captureConfigBuilder.implementationOptions k =
      mergeSpecAt b.captureConfigBuilder.implementationOptions
        ((sc.repeatingCaptureConfig.implementationOptions).foldl
          (checkOptionsStep b.captureConfigBuilder.implementationOptions)
          ([], v1)).1 k := by
    rw [hopts1]
    exact addImplOpts_fold_lookup _ _ _ k
  unfold mergeSpecAt at hlu
  cases hct : containsOption b.captureConfigBuilder.implementationOptions k with
  | false =>
    rw [hct] at hladds
    rw [if_pos (Or.inr rfl)] at hladds
    rw [hladds] at hlu
    replace hlu : lookupOption b'.captureConfigBuilder.implementationOptions k =
      some (mergeSpec
        (lookupOption b.captureConfigBuilder.implementationOptions k) v) := hlu
    have hnone : lookupOption b.captureConfigBuilder.implementationOptions k =
        none := by
      unfold containsOption at hct
      cases hl : lookupOption b.captureConfigBuilder.implementationOptions k with
      | none => rfl
      | some u =>
        rw [hl] at hct
        exact Bool.noConfusion hct
    rw [hnone] at hlu
    have hms : mergeSpec none v = v := by cases v <;> rfl
    rw [hms] at hlu
    exact Or.inr ⟨v, hlu, Or.inl rfl⟩
  | true =>
    rw [hvs, hct] at hladds
    rw [if_neg (by simp)] at hladds
    obtain ⟨u, hl⟩ : ∃ u,
        lookupOption b.captureConfigBuilder.implementationOptions k = some u := by
      unfold containsOption at hct
      cases hl : lookupOption b.captureConfigBuilder.implementationOptions k with
      | none =>
        rw [hl] at hct
        exact Bool.noConfusion hct
      | some u => exact ⟨u, rfl⟩
    by_cases huv : u = v
    · subst huv
      rw [hladds] at hlu
      replace hlu : lookupOption b'.captureConfigBuilder.implementationOptions k =
        lookupOption b.captureConfigBuilder.implementationOptions k := hlu
      rw [hl] at hlu
      exact Or.inr ⟨u, hlu, Or.inl rfl⟩
    · have hmem := lookupOption_mem _ _ _ hv
      have hne2 : lookupOption b.captureConfigBuilder.implementationOptions k ≠
          some v := by
        rw [hl]
        intro hc
        injection hc with hc2
        exact huv hc2
      left
      rw [hval1]
      exact checkOptionsFold_conflict _ _ (k, v) hmem hvs hct hne2 [] v1

theorem conflict_strike (k : OptionId) (v w : Value) (b : ValidatingBuilder)
    (sc : SessionConfig) (b' : ValidatingBuilder)
    (h : b.add sc = .ok b') (hR : ConflictR k v b)
    (hw : lookupOption sc.repeatingCaptureConfig.implementationOptions k = some w)
    (hws : w.isMulti = false) (hvs : v.isMulti = false) (hne : v ≠ w) :
    b'.valid = false := by
  unfold ConflictR at hR
  rcases hR with hval | ⟨u, hu, hcase⟩
  · exact add_valid_false b sc b' h hval
  · obtain ⟨v1, hval1, _⟩ := add_ok_chars b sc b' h
    have hmem := lookupOption_mem _ _ _ hw
    have hct : containsOption
        b.captureConfigBuilder.implementationOptions k = true := by
      unfold containsOption
      rw [hu]
      rfl
    have hneq : lookupOption b.captureConfigBuilder.implementationOptions k ≠
        some w := by
      rw [hu]
      intro hc
      injection hc with hc2
      rcases hcase with hcv | hcm
      · refine hne ?_
        rw [← hcv]
        exact hc2
      · rw [hc2] at hcm
        rw [hcm] at hws
        exact Bool.noConfusion hws
    rw [hval1]
    exact checkOptionsFold_conflict _ _ (k, w) hmem hws hct hneq [] v1

theorem addAll_conflictR (k : OptionId) (v : Value) :
    ∀ (cs : List SessionConfig) (b b' : ValidatingBuilder),
    b.addAll cs = .ok b' → ConflictR k v b → ConflictR k v b' := by
  intro cs
  induction cs with
  | nil =>
    intro b b' h hR
    cases h
    exact hR
  | cons c cs ih =>
    intro b b' h hR
    simp only [ValidatingBuilder.addAll] at h
    cases hadd : b.add c with
    | error e => rw [hadd] at h; cases h
    | ok b1 =>
      rw [hadd] at h
      exact ih b1 b' h (conflict_step k v b c b1 hadd hR)

theorem addAll_valid_false :
    ∀ (cs : List SessionConfig) (b b' : ValidatingBuilder),
    b.addAll cs = .ok b' → b.valid = false → b'.valid = false := by
  intro cs
  induction cs with
  | nil =>
    intro b b' h hv
    cases h
    exact hv
  | cons c cs ih =>
    intro b b' h hv
    simp only [ValidatingBuilder.addAll] at h
    cases hadd : b.add c with
    | error e => rw [hadd] at h; cases h
    | ok b1 =>
      rw [hadd] at h
      exact ih b1 b' h (add_valid_false b c b1 hadd hv)

theorem addAll_ok_append (ys : List SessionConfig) :
    ∀ (xs : List SessionConfig) (b b' : ValidatingBuilder),
    b.addAll (xs ++ ys) = .ok b' →
    ∃ b1, b.addAll xs = .ok b1 ∧ b1.addAll ys = .ok b' := by
  intro xs
  induction xs with
  | nil =>
    intro b b' h
    exact ⟨b, rfl, h⟩
  | cons x xs ih =>
    intro b b' h
    rw [List.cons_append] at h
    simp only [ValidatingBuilder.addAll] at h ⊢
    cases hadd : b.add x with
    | error e => rw [hadd] at h; cases h
    | ok b1 =>
      rw [hadd] at h
      obtain ⟨b2, h1, h2⟩ := ih b1 b' h
      exact ⟨b2, h1, h2⟩

theorem clean_empty (t : Int) : CleanInv [] t ValidatingBuilder.empty := by
  refine ⟨rfl, rfl, ?_, ?_, ?_, rfl, rfl, ?_, ?_⟩
  · intro h
    exact absurd rfl h
  · intro x
    simp [ValidatingBuilder.empty]
  · intro x
    simp [ValidatingBuilder.empty, CaptureConfigBuilder.empty]
  · intro k u hu
    exact Option.noConfusion hu
  · intro h
    exact absurd rfl h

theorem clean_addAll (t : Int) :
    ∀ (rest done : List SessionConfig) (b : ValidatingBuilder),
    CleanInv done t b →
    (∀ c ∈ done ++ rest, c.repeatingCaptureConfig.templateType = t) →
    (∀ c ∈ done ++ rest, ∀ s ∈ c.repeatingCaptureConfig.surfaces,
      s ∈ c.surfaces) →
    (∀ c ∈ done ++ rest,
      optionsSorted c.repeatingCaptureConfig.implementationOptions = true) →
    (∀ c ∈ done ++ rest, ∀ c' ∈ done ++ rest, ∀ k v w,
      lookupOption c.repeatingCaptureConfig.implementationOptions k = some v →
      lookupOption c'.repeatingCaptureConfig.implementationOptions k = some w →
      (v.isMulti = true ∧ w.isMulti = true) ∨ v = w) →
    (((done ++ rest).map fun c =>
      c.repeatingCaptureConfig.cameraCaptureCallbacks).flatten).Nodup →
    ∃ b', b.addAll rest = .ok b' ∧ CleanInv (done ++ rest) t b' := by
  intro rest
  induction rest with
  | nil =>
    intro done b hInv _ _ _ _ _
    refine ⟨b, rfl, ?_⟩
    rw [List.append_nil]
    exact hInv
  | cons d rest ih =>
    intro done b hInv hT hwf hsorted hopts hnd
    have hdmem : d ∈ done ++ d :: rest :=
      List.mem_append_right _ (List.mem_cons_self _ _)
    have hndparts := hnd
    rw [show ((done ++ d :: rest).map fun c =>
        c.repeatingCaptureConfig.cameraCaptureCallbacks).flatten =
        ((done.map fun c =>
          c.repeatingCaptureConfig.cameraCaptureCallbacks).flatten)
          ++ (d.repeatingCaptureConfig.cameraCaptureCallbacks ++
            ((rest.map fun c =>
              c.repeatingCaptureConfig.cameraCaptureCallbacks).flatten)) from by
      simp] at hndparts
    rw [List.nodup_append] at hndparts
    obtain ⟨hnd1, hnd2, hdisj⟩ := hndparts
    rw [List.nodup_append] at hnd2
    obtain ⟨hndd, hndrest, hdisj2⟩ := hnd2
    have hstep := clean_add done t b d hInv
      (hT d hdmem)
      (by
        intro c hc
        refine hwf c ?_
        rcases List.mem_append.1 hc with h1 | h1
        · exact List.mem_append_left _ h1
        · rw [List.mem_singleton.1 h1]
          exact hdmem)
      (hsorted d hdmem)
      (by
        intro c hc k v w hv hw
        exact hopts d hdmem c (List.mem_append_left _ hc) k v w hv hw)
      hndd
      (by
        intro x hx hmem
        exact hdisj hmem (List.mem_append_left _ hx))
    obtain ⟨b1, haddOk, hInv1⟩ := hstep
    have hre : (done ++ [d]) ++ rest = done ++ d :: rest := by simp
    obtain ⟨b', hok, hInv'⟩ := ih (done ++ [d]) b1 hInv1
      (by rw [hre]; exact hT)
      (by rw [hre]; exact hwf)
      (by rw [hre]; exact hsorted)
      (by rw [hre]; exact hopts)
      (by rw [hre]; exact hnd)
    refine ⟨b', ?_, ?_⟩
    · simp only [ValidatingBuilder.addAll]
      rw [haddOk]
      exact hok
    · rw [hre] at hInv'
      exact hInv'

/-- C5: merging a sequence of `SessionConfig`s through
`SessionConfig.ValidatingBuilder.add`. Positive half: if every added config
has the same template type and no two added configs bind a common option id
to values that are not both multi-value and not equal, then the sequence of
adds succeeds, `isValid` is true, and `build()` returns a combined
`SessionConfig` whose surface set is the union of the added configs'
surfaces. Negative half: if an earlier config binds option id `k` to the
non-multi-value `v` and a later config binds `k` to the non-multi-value
`w ≠ v`, then after any successful sequence of adds `isValid` is false.
(Representation hypotheses: capture-config surfaces are registered session
surfaces, option stores are sorted, and the added camera capture callbacks
are pairwise distinct — duplicates make `add` throw before any conflict is
evaluated.) -/
theorem C5_validating_builder_merge (cs : List SessionConfig) (t : Int)
    (hwf : ∀ c ∈ cs, ∀ s ∈ c.repeatingCaptureConfig.surfaces, s ∈ c.surfaces)
    (hsorted : ∀ c ∈ cs,
      optionsSorted c.repeatingCaptureConfig.implementationOptions = true)
    (hnd : ((cs.map fun c =>
      c.repeatingCaptureConfig.cameraCaptureCallbacks).flatten).Nodup) :
    (cs ≠ [] →
      (∀ c ∈ cs, c.repeatingCaptureConfig.templateType = t) →
      (∀ c ∈ cs, ∀ c' ∈ cs, ∀ k v w,
        lookupOption c.repeatingCaptureConfig.implementationOptions k = some v →
        lookupOption c'.repeatingCaptureConfig.implementationOptions k = some w →
        (v.isMulti = true ∧ w.isMulti = true) ∨ v = w) →
      ∃ b sc, ValidatingBuilder.empty.addAll cs = .ok b ∧
        b.isValid = true ∧ b.build = .ok sc ∧
        (∀ x : Nat, x ∈ sc.surfaces ↔ ∃ c ∈ cs, x ∈ c.surfaces)) ∧
    (∀ l1 ci l2 cj l3 k v w b,
      cs = l1 ++ ci :: (l2 ++ cj :: l3) →
      lookupOption ci.repeatingCaptureConfig.implementationOptions k = some v →
      lookupOption cj.repeatingCaptureConfig.implementationOptions k = some w →
      v.isMulti = false → w.isMulti = false → v ≠ w →
      ValidatingBuilder.empty.addAll cs = .ok b →
      b.isValid = false) := by
  constructor
  · intro hne hT hopts
    obtain ⟨b, hok, hInv⟩ := clean_addAll t cs [] ValidatingBuilder.empty
      (clean_empty t) hT hwf hsorted hopts hnd
    obtain ⟨hv, hts, htt, hsurf, hcsurf, hccb, hsort, hoinv, htag⟩ := hInv
    have htset : b.templateSet = true := by
      rw [hts]
      cases cs with
      | nil => exact absurd rfl hne
      | cons a l => rfl
    have hvalid : b.isValid = true := by
      unfold ValidatingBuilder.isValid
      rw [htset, hv]
      rfl
    obtain ⟨tg, htg⟩ := Option.isSome_iff_exists.1 (htag hne)
    refine ⟨b,
      { surfaces := b.surfaces
        deviceStateCallbacks := b.deviceStateCallbacks
        sessionStateCallbacks := b.sessionStateCallbacks
        singleCameraCaptureCallbacks := b.singleCameraCaptureCallbacks
        repeatingCaptureConfig :=
          { surfaces := b.captureConfigBuilder.surfaces
            implementationOptions :=
              b.captureConfigBuilder.implementationOptions
            templateType := b.captureConfigBuilder.templateType
            cameraCaptureCallbacks :=
              b.captureConfigBuilder.cameraCaptureCallbacks
            isUseRepeatingSurface :=
              b.captureConfigBuilder.isUseRepeatingSurface
            tag := tg } }, hok, hvalid, ?_, ?_⟩
    · unfold ValidatingBuilder.build
      rw [if_neg (by rw [hv]; simp)]
      rw [show b.captureConfigBuilder.build = .ok
          { surfaces := b.captureConfigBuilder.surfaces
            implementationOptions :=
              b.captureConfigBuilder.implementationOptions
            templateType := b.captureConfigBuilder.templateType
            cameraCaptureCallbacks :=
              b.captureConfigBuilder.cameraCaptureCallbacks
            isUseRepeatingSurface :=
              b.captureConfigBuilder.isUseRepeatingSurface
            tag := tg } from by
        unfold CaptureConfigBuilder.build
        rw [htg]]
    · intro x
      show x ∈ b.surfaces ↔ _
      exact hsurf x
  · intro l1 ci l2 cj l3 k v w b hcs hv hw hvs hws hne hok
    have hsci := hsorted ci (by rw [hcs]; simp)
    subst hcs
    obtain ⟨b0, hok1, hok2⟩ := addAll_ok_append (ci :: (l2 ++ cj :: l3)) l1 _ _ hok
    simp only [ValidatingBuilder.addAll] at hok2
    cases hadd1 : b0.add ci with
    | error e => rw [hadd1] at hok2; cases hok2
    | ok b1 =>
      rw [hadd1] at hok2
      replace hok2 : b1.addAll (l2 ++ cj :: l3) = .ok b := hok2
      have hR1 := conflict_init k v b0 ci b1 hadd1 hv hvs hsci
      obtain ⟨b2, hok3, hok4⟩ := addAll_ok_append (cj :: l3) l2 b1 b hok2
      have hR2 := addAll_conflictR k v l2 b1 b2 hok3 hR1
      simp only [ValidatingBuilder.addAll] at hok4
      cases hadd2 : b2.add cj with
      | error e => rw [hadd2] at hok4; cases hok4
      | ok b3 =>
        rw [hadd2] at hok4
        replace hok4 : b3.addAll l3 = .ok b := hok4
        have hv3 := conflict_strike k v w b2 cj b3 hadd2 hR2 hw hws hvs hne
        have hvb := addAll_valid_false l3 b3 b hok4 hv3
        unfold ValidatingBuilder.isValid
        rw [hvb]
        exact Bool.and_false _

theorem C5_witness :
    ∃ b sc, ValidatingBuilder.empty.addAll [sampleSession 5] = .ok b ∧
      b.isValid = true ∧ b.build = .ok sc ∧
      (∀ x : Nat, x ∈ sc.surfaces ↔ ∃ c ∈ [sampleSession 5], x ∈ c.surfaces) :=
  (C5_validating_builder_merge [sampleSession 5] 2
    (by decide) (by decide) (by decide)).1
    (by decide) (by decide)
    (by
      intro c hc c' hc' k v w hv hw
      rw [List.mem_singleton] at hc
      subst hc
      exact Option.noConfusion hv)

/-- C2: a `Camera` in state `CLOSING` that receives `open()` only flips its
state to `REOPENING` — no platform call, no device close, no session reset
(the returned event trace is empty); and when the in-flight close completes
(`onClosed` callback) in state `REOPENING`, the capture session is reset
first and then `openCameraDevice` runs from `OPENING`, so on a successful
platform call the camera ends in `OPENING` with the trace
`[resetSession, openCameraCall]`. -/
theorem C2_closing_open_reopening (c : Camera) :
    (c.state = .closing → ∀ openOk,
      c.open openOk = ({ c with state := .reopening }, [])) ∧
    (c.state = .reopening → ∀ openOk,
      c.onClosed openOk = .ok
        ((Camera.openCameraDevice openOk { c with state := .opening }).1,
          .resetSession ::
            (Camera.openCameraDevice openOk { c with state := .opening }).2) ∧
      (openOk = true →
        c.onClosed openOk =
          .ok ({ c with state := .opening },
            [.resetSession, .openCameraCall]))) := by
  obtain ⟨st, dev⟩ := c
  constructor
  · intro hst openOk
    replace hst : st = .closing := hst
    subst hst
    rfl
  · intro hst openOk
    replace hst : st = .reopening := hst
    subst hst
    constructor
    · rfl
    · intro hok
      subst hok
      rfl

theorem C2_witness :
    ((⟨.closing, some 0⟩ : Camera).open true =
      ({ (⟨.closing, some 0⟩ : Camera) with state := .reopening }, [])) ∧
    ((⟨.reopening, some 0⟩ : Camera).onClosed true =
      .ok ({ (⟨.reopening, some 0⟩ : Camera) with state := .opening },
        [.resetSession, .openCameraCall])) :=
  ⟨(C2_closing_open_reopening ⟨.closing, some 0⟩).1 rfl true,
   ((C2_closing_open_reopening ⟨.reopening, some 0⟩).2 rfl true).2 rfl⟩

/-- C8: when the platform `openCamera` call throws `CameraAccessException`
inside `Camera.openCameraDevice` (oracle `openOk = false`), the exception is
caught: both `openCameraDevice` and `open()` return normally (they are total
functions of the model), the error is logged, the platform call trace shows
the attempted open, and the camera is back in `INITIALIZED` — for a camera
that was `INITIALIZED`, literally unchanged. -/
theorem C8_open_failure_reverts (c : Camera) (h : c.state = .initialized) :
    c.openCameraDevice false = (c, [.openCameraCall, .openErrorLog]) ∧
    c.open false = (c, [.openCameraCall, .openErrorLog]) := by
  obtain ⟨st, dev⟩ := c
  replace h : st = .initialized := h
  subst h
  exact ⟨rfl, rfl⟩

theorem C8_witness :
    (⟨.initialized, none⟩ : Camera).openCameraDevice false =
      ((⟨.initialized, none⟩ : Camera), [.openCameraCall, .openErrorLog]) ∧
    (⟨.initialized, none⟩ : Camera).open false =
      ((⟨.initialized, none⟩ : Camera), [.openCameraCall, .openErrorLog]) :=
  C8_open_failure_reverts ⟨.initialized, none⟩ rfl

/-- C10: `close()` on a `CaptureSession` that is still `INITIALIZED`
(constructed but never opened) jumps directly to the terminal `RELEASED`
state, never passing through `CLOSED`; afterwards every state-dependent
operation behaves as on a released session — `release()` hands back a fresh
already-resolved future, `issueCaptureRequests` and the `sessionConfig`
setter throw the closed/released error, and `close()` / `open()` are
no-ops. -/
theorem C10_close_from_initialized (s : CaptureSession)
    (h : s.state = .initialized) (disable : List CaptureConfig)
    (buildReq : CaptureConfig → Option Nat) (platformOk : Bool) :
    CaptureSession.close disable buildReq platformOk s =
      .ok { s with state := .released } ∧
    ({ s with state := .released } : CaptureSession).state ≠ .closed ∧
    CaptureSession.release { s with state := .released } =
      .ok ({ s with state := .released }, .resolved) ∧
    (∀ cfgs, CaptureSession.issueCaptureRequests buildReq platformOk cfgs
      { s with state := .released } = .error .closedSession) ∧
    (∀ cfg, CaptureSession.setSessionConfig cfg { s with state := .released } =
      .error .closedSession) ∧
    CaptureSession.close disable buildReq platformOk
      { s with state := .released } = .ok { s with state := .released } ∧
    (∀ sc ok2, CaptureSession.open sc ok2 { s with state := .released } =
      .ok { s with state := .released }) := by
  obtain ⟨st, q, ccs, pcl, scfg, ceor, rf, rcs, nid⟩ := s
  replace h : st = .initialized := h
  subst h
  refine ⟨rfl, ?_, rfl, fun cfgs => rfl, fun cfg => rfl, rfl, fun sc ok2 => rfl⟩
  intro hc
  exact CaptureSessionState.noConfusion hc

theorem C10_witness :
    CaptureSession.close [] (fun _ => none) true
      { sampleCaptureSession with state := .initialized } =
      .ok { { sampleCaptureSession with state := .initialized } with
        state := .released } ∧
    CaptureSession.release
      { { sampleCaptureSession with state := .initialized } with
        state := .released } =
      .ok ({ { sampleCaptureSession with state := .initialized } with
        state := .released }, .resolved) :=
  ⟨(C10_close_from_initialized
      { sampleCaptureSession with state := .initialized } rfl []
      (fun _ => none) true).1,
   (C10_close_from_initialized
      { sampleCaptureSession with state := .initialized } rfl []
      (fun _ => none) true).2.2.1⟩

/-- C4: `issueCaptureRequests(list)` appends the given configs to the
pending queue when the session is `INITIALIZED` or `OPENING`; when `OPENED`
it appends them and immediately issues a burst after which the pending
queue is empty — for every request-building oracle and every platform
outcome, i.e. also when a mid-burst build returns `null` or `captureBurst`
throws `CameraAccessException` (the `finally` block clears the queue on
every exit path); and it throws the closed/released `IllegalStateException`
when the session is `CLOSED`, `RELEASING`, or `RELEASED`. -/
theorem C4_issue_capture_requests (s : CaptureSession)
    (buildReq : CaptureConfig → Option Nat) (platformOk : Bool)
    (cfgs : List CaptureConfig) :
    ((s.state = .initialized ∨ s.state = .opening) →
      CaptureSession.issueCaptureRequests buildReq platformOk cfgs s =
        .ok ({ s with captureConfigs := s.captureConfigs ++ cfgs }, [])) ∧
    (s.state = .opened →
      ∃ issued, CaptureSession.issueCaptureRequests buildReq platformOk cfgs s =
        .ok ({ s with captureConfigs := [] }, issued)) ∧
    ((s.state = .closed ∨ s.state = .releasing ∨ s.state = .released) →
      CaptureSession.issueCaptureRequests buildReq platformOk cfgs s =
        .error .closedSession) := by
  obtain ⟨st, q, ccs, pcl, scfg, ceor, rf, rcs, nid⟩ := s
  refine ⟨?_, ?_, ?_⟩
  · intro hst
    rcases hst with hst | hst
    · replace hst : st = .initialized := hst
      subst hst
      rfl
    · replace hst : st = .opening := hst
      subst hst
      rfl
  · intro hst
    replace hst : st = .opened := hst
    subst hst
    show ∃ issued,
      Except.ok (CaptureSession.issueBurstCaptureRequest buildReq platformOk
        { state := .opened
          captureConfigs := q ++ cfgs
          cameraCaptureSession := ccs
          platformSessionClosed := pcl
          sessionConfig := scfg
          cameraEventOnRepeatingOptions := ceor
          releaseFuture := rf
          releaseCompleterSet := rcs
          nextId := nid }) = _
    simp only [CaptureSession.issueBurstCaptureRequest]
    cases hq : (q ++ cfgs).isEmpty with
    | true =>
      rw [if_pos rfl]
      refine ⟨[], ?_⟩
      rw [show q ++ cfgs = [] from by simpa using hq]
    | false =>
      rw [if_neg (by simp [hq])]
      cases burstLoop buildReq (q ++ cfgs) [] with
      | none => exact ⟨[], rfl⟩
      | some reqs =>
        cases platformOk with
        | true => exact ⟨reqs, rfl⟩
        | false => exact ⟨[], rfl⟩
  · intro hst
    rcases hst with hst | hst | hst
    · replace hst : st = .closed := hst
      subst hst
      rfl
    · replace hst : st = .releasing := hst
      subst hst
      rfl
    · replace hst : st = .released := hst
      subst hst
      rfl

theorem C4_witness :
    (∃ issued, CaptureSession.issueCaptureRequests (fun _ => none) true
      [sampleSession 3 |>.repeatingCaptureConfig] sampleCaptureSession =
      .ok ({ sampleCaptureSession with captureConfigs := [] }, issued)) ∧
    CaptureSession.issueCaptureRequests (fun _ => none) true
      [sampleSession 3 |>.repeatingCaptureConfig]
      { sampleCaptureSession with state := .releasing } =
      .error .closedSession :=
  ⟨(C4_issue_capture_requests sampleCaptureSession (fun _ => none) true
      [sampleSession 3 |>.repeatingCaptureConfig]).2.1 rfl,
   (C4_issue_capture_requests
      { sampleCaptureSession with state := .releasing } (fun _ => none) true
      [sampleSession 3 |>.repeatingCaptureConfig]).2.2
      (Or.inr (Or.inl rfl))⟩

/-- C3: `release()` from `OPENED`, `CLOSED`, `OPENING`, or `RELEASING`
moves the session to `RELEASING` and returns the shared pending release
future, creating it only on the first call — so a repeated `release()`
returns the identical handle and changes nothing — and the platform session
is closed whenever one is held (for `OPENING`/`RELEASING` this needs the
reachability fact, taken as hypothesis, that any platform session held in
those states has already been closed). The handle stays shared until the
platform `onClosed` callback resolves it: after `onClosed` the session is
`RELEASED` and `release()` returns a fresh already-resolved future. From
`INITIALIZED`, `release()` jumps directly to `RELEASED` and returns an
already-resolved handle. -/
theorem C3_release_shared_handle (s : CaptureSession)
    (hInv : (s.state = .opening ∨ s.state = .releasing) →
      s.cameraCaptureSession.isSome = true → s.platformSessionClosed = true) :
    ((s.state = .opened ∨ s.state = .closed ∨ s.state = .opening ∨
        s.state = .releasing) →
      ∃ s' fid, s.release = .ok (s', .pending fid) ∧
        s'.state = .releasing ∧
        s'.releaseFuture = some fid ∧
        (s'.cameraCaptureSession.isSome = true →
          s'.platformSessionClosed = true) ∧
        s'.release = .ok (s', .pending fid) ∧
        (∃ s'', s'.onClosed = .ok s'' ∧ s''.state = .released ∧
          s''.release = .ok (s'', .resolved))) ∧
    (s.state = .initialized →
      s.release = .ok ({ s with state := .released }, .resolved)) := by
  obtain ⟨st, q, ccs, pcl, scfg, ceor, rf, rcs, nid⟩ := s
  constructor
  · intro hst
    rcases hst with hst | hst | hst | hst
    · replace hst : st = .opened := hst
      subst hst
      cases ccs with
      | some pid =>
        cases rf with
        | some fid =>
          exact ⟨_, fid, rfl, rfl, rfl, fun _ => rfl, rfl, _, rfl, rfl, rfl⟩
        | none =>
          exact ⟨_, nid, rfl, rfl, rfl, fun _ => rfl, rfl, _, rfl, rfl, rfl⟩
      | none =>
        cases rf with
        | some fid =>
          exact ⟨_, fid, rfl, rfl, rfl, fun h => Bool.noConfusion h, rfl,
            _, rfl, rfl, rfl⟩
        | none =>
          exact ⟨_, nid, rfl, rfl, rfl, fun h => Bool.noConfusion h, rfl,
            _, rfl, rfl, rfl⟩
    · replace hst : st = .closed := hst
      subst hst
      cases ccs with
      | some pid =>
        cases rf with
        | some fid =>
          exact ⟨_, fid, rfl, rfl, rfl, fun _ => rfl, rfl, _, rfl, rfl, rfl⟩
        | none =>
          exact ⟨_, nid, rfl, rfl, rfl, fun _ => rfl, rfl, _, rfl, rfl, rfl⟩
      | none =>
        cases rf with
        | some fid =>
          exact ⟨_, fid, rfl, rfl, rfl, fun h => Bool.noConfusion h, rfl,
            _, rfl, rfl, rfl⟩
        | none =>
          exact ⟨_, nid, rfl, rfl, rfl, fun h => Bool.noConfusion h, rfl,
            _, rfl, rfl, rfl⟩
    · replace hst : st = .opening := hst
      subst hst
      cases rf with
      | some fid =>
        exact ⟨_, fid, rfl, rfl, rfl, fun h => hInv (Or.inl rfl) h, rfl,
          _, rfl, rfl, rfl⟩
      | none =>
        exact ⟨_, nid, rfl, rfl, rfl, fun h => hInv (Or.inl rfl) h, rfl,
          _, rfl, rfl, rfl⟩
    · replace hst : st = .releasing := hst
      subst hst
      cases rf with
      | some fid =>
        exact ⟨_, fid, rfl, rfl, rfl, fun h => hInv (Or.inr rfl) h, rfl,
          _, rfl, rfl, rfl⟩
      | none =>
        exact ⟨_, nid, rfl, rfl, rfl, fun h => hInv (Or.inr rfl) h, rfl,
          _, rfl, rfl, rfl⟩
  · intro hst
    replace hst : st = .initialized := hst
    subst hst
    rfl

theorem C3_witness :
    ∃ s' fid, sampleCaptureSession.release = .ok (s', .pending fid) ∧
      s'.state = .releasing ∧
      s'.releaseFuture = some fid ∧
      (s'.cameraCaptureSession.isSome = true →
        s'.platformSessionClosed = true) ∧
      s'.release = .ok (s', .pending fid) ∧
      (∃ s'', s'.onClosed = .ok s'' ∧ s''.state = .released ∧
        s''.release = .ok (s'', .resolved)) :=
  (C3_release_shared_handle sampleCaptureSession (by decide)).1 (Or.inl rfl)

end Camera2
